import Mathlib

set_option maxRecDepth 4000

/-!
Shallow embedding of the GentlyOS firewall detection engine
(`src/security/firewall/core`), together with proofs of the specification
claims about it.

Conventions used throughout this development:

* Rust `f32`/`f64` quantities (confidences, scales) are modelled as exact
  rationals `ℚ`.  Fixed confidence literals are written as already-normalized
  `Rat` structure literals so that they are kernel-computable.
* Rust machine integers (`u64`, `u8`, `u16`, `u128`, `usize`) are modelled as
  `ℕ`; overflow never occurs at the points embedded here because the source
  parses bounded-width tokens (the parse-failure cases are modelled
  explicitly where the source uses `filter_map(.. parse .. ok)`).
* File contents are `List Char` (text) or `List ℕ` (bytes); the regular
  expression scans of the source are embedded as explicit character
  scanners whose behaviour matches the `regex` crate semantics on the
  ASCII inputs the detectors target.
* The `metadata` field of `Finding` (a free-form diagnostic JSON payload
  that no claim mentions) is not modelled.
-/

namespace Firewall

/-- Severity levels, in the declaration order of
`src/security/firewall/core/src/skills/trait.rs` (`Info < Low < Medium <
High < Critical`, the derived `Ord`). -/
inductive Severity where
  | info : Severity
  | low : Severity
  | medium : Severity
  | high : Severity
  | critical : Severity
deriving DecidableEq

/-- Rank of a severity under the derived Rust `Ord` (declaration order). -/
def sevRank : Severity → ℕ
  | .info => 0
  | .low => 1
  | .medium => 2
  | .high => 3
  | .critical => 4

/-- Structured JSON-like payload, modelling `serde_json::Value`. -/
inductive Val where
  | null : Val
  | bool (b : Bool) : Val
  | num (q : ℚ) : Val
  | str (s : String) : Val
  | arr (l : List Val) : Val
  | obj (l : List (String × Val)) : Val

mutual

def Val.beq : Val → Val → Bool
  | .null, .null => true
  | .bool a, .bool b => a == b
  | .num a, .num b => a == b
  | .str a, .str b => a == b
  | .arr a, .arr b => Val.beqList a b
  | .obj a, .obj b => Val.beqObj a b
  | _, _ => false

def Val.beqList : List Val → List Val → Bool
  | [], [] => true
  | a :: as, b :: bs => Val.beq a b && Val.beqList as bs
  | _, _ => false

def Val.beqObj : List (String × Val) → List (String × Val) → Bool
  | [], [] => true
  | (ka, va) :: as, (kb, vb) :: bs => ka == kb && Val.beq va vb && Val.beqObj as bs
  | _, _ => false

end

mutual

theorem Val.beq_eq : ∀ a b : Val, Val.beq a b = true → a = b
  | .null, .null, _ => rfl
  | .bool _, .bool _, h => by simp_all [Val.beq]
  | .num _, .num _, h => by simp_all [Val.beq]
  | .str _, .str _, h => by simp_all [Val.beq]
  | .arr a, .arr b, h => by
      simp only [Val.beq] at h
      exact congrArg Val.arr (Val.beqList_eq a b h)
  | .obj a, .obj b, h => by
      simp only [Val.beq] at h
      exact congrArg Val.obj (Val.beqObj_eq a b h)

theorem Val.beqList_eq : ∀ a b : List Val, Val.beqList a b = true → a = b
  | [], [], _ => rfl
  | a :: as, b :: bs, h => by
      simp only [Val.beqList, Bool.and_eq_true] at h
      exact congrArg₂ List.cons (Val.beq_eq a b h.1) (Val.beqList_eq as bs h.2)

theorem Val.beqObj_eq : ∀ a b : List (String × Val), Val.beqObj a b = true → a = b
  | [], [], _ => rfl
  | (ka, va) :: as, (kb, vb) :: bs, h => by
      simp only [Val.beqObj, Bool.and_eq_true] at h
      have h1 : ka = kb := by simpa using h.1.1
      have h2 : va = vb := Val.beq_eq _ _ h.1.2
      have h3 : as = bs := Val.beqObj_eq as bs h.2
      simp [h1, h2, h3]

end

mutual

theorem Val.beq_refl : ∀ a : Val, Val.beq a a = true
  | .null => rfl
  | .bool _ => by simp [Val.beq]
  | .num _ => by simp [Val.beq]
  | .str _ => by simp [Val.beq]
  | .arr a => by simp only [Val.beq]; exact Val.beqList_refl a
  | .obj a => by simp only [Val.beq]; exact Val.beqObj_refl a

theorem Val.beqList_refl : ∀ a : List Val, Val.beqList a a = true
  | [] => rfl
  | a :: as => by
      simp only [Val.beqList, Bool.and_eq_true]
      exact ⟨Val.beq_refl a, Val.beqList_refl as⟩

theorem Val.beqObj_refl : ∀ a : List (String × Val), Val.beqObj a a = true
  | [] => rfl
  | (ka, va) :: as => by
      simp only [Val.beqObj, Bool.and_eq_true]
      exact ⟨⟨by simp, Val.beq_refl va⟩, Val.beqObj_refl as⟩

end

instance : DecidableEq Val := fun a b =>
  if h : Val.beq a b = true then .isTrue (Val.beq_eq a b h)
  else .isFalse (fun he => h (he ▸ Val.beq_refl a))

/-- Look up a key in an object payload (first binding wins). -/
def Val.lookup (v : Val) (key : String) : Option Val :=
  match v with
  | .obj l => (l.find? (fun kv => kv.1 = key)).map (·.2)
  | _ => none

/-- One detection record, modelling `Finding` of `skills/trait.rs`
(the unmodelled diagnostic `metadata` field excepted). -/
structure Finding where
  finding_type : String
  value : Val
  confidence : ℚ
  location : String
  severity : Severity
deriving DecidableEq

/-- Output of one skill execution, modelling `SkillOutput` of
`skills/trait.rs` (the unmodelled diagnostic `metadata` field excepted). -/
structure SkillOutput where
  findings : List Finding
  confidence : ℚ
  complete : Bool
deriving DecidableEq

/-- Error taxonomy, modelling `SkillError` of `skills/trait.rs`; the payloads
of the `Io`/`Serialization` variants are reduced to their message text. -/
inductive SkillError where
  | invalidParams (msg : String) : SkillError
  | io (msg : String) : SkillError
  | analysisFailed (msg : String) : SkillError
  | serialization (msg : String) : SkillError
deriving DecidableEq

/-- Kernel-computable rational constant 0.6. -/
def q0_6 : ℚ := ⟨3, 5, by decide, by decide⟩

/-- Kernel-computable rational constant 0.65. -/
def q0_65 : ℚ := ⟨13, 20, by decide, by decide⟩

/-- Kernel-computable rational constant 0.7. -/
def q0_7 : ℚ := ⟨7, 10, by decide, by decide⟩

/-- Kernel-computable rational constant 0.75. -/
def q0_75 : ℚ := ⟨3, 4, by decide, by decide⟩

/-- Kernel-computable rational constant 0.8. -/
def q0_8 : ℚ := ⟨4, 5, by decide, by decide⟩

/-- Kernel-computable rational constant 0.85. -/
def q0_85 : ℚ := ⟨17, 20, by decide, by decide⟩

/-- Kernel-computable rational constant 0.9. -/
def q0_9 : ℚ := ⟨9, 10, by decide, by decide⟩

/-- Kernel-computable rational constant 0.95. -/
def q0_95 : ℚ := ⟨19, 20, by decide, by decide⟩

/-- Kernel-computable rational constant 0.99. -/
def q0_99 : ℚ := ⟨99, 100, by decide, by decide⟩

/-- Kernel-computable rational constant 0.3. -/
def q0_3 : ℚ := ⟨3, 10, by decide, by decide⟩

/-- Sum of the confidences of a list of findings. -/
def confSum (fs : List Finding) : ℚ := (fs.map Finding.confidence).sum

/-- Model of `SkillOutput::with_findings` (`skills/trait.rs` lines 90-103):
aggregate confidence is 1.0 for an empty list and the arithmetic mean of the
finding confidences otherwise. -/
def SkillOutput.withFindings (fs : List Finding) : SkillOutput :=
  { findings := fs
    confidence := if fs.isEmpty then 1 else confSum fs / fs.length
    complete := true }

/-- Default `Skill::confidence_threshold` (`skills/trait.rs` lines 120-123);
every built-in detector uses this value (the SVG detector re-states it
explicitly in `detectors/svg.rs` lines 470-472). -/
def defaultConfidenceThreshold : ℚ := q0_7

/-- The explicit `confidence_threshold` override of the SVG detector
(`detectors/svg.rs` lines 470-472); it equals the default 0.70. -/
def svgConfidenceThreshold : ℚ := q0_7

/-- Confidence filter applied at the end of every detector's `execute`:
`findings.into_iter().filter(|f| f.confidence >= threshold)`. -/
def filterByThreshold (t : ℚ) (fs : List Finding) : List Finding :=
  fs.filter (fun f => t ≤ f.confidence)

/-- The shared tail of every detector's `execute`: filter the raw findings by
the confidence threshold and wrap them with `SkillOutput::with_findings`. -/
def executeFiltered (t : ℚ) (raw : List Finding) : SkillOutput :=
  SkillOutput.withFindings (filterByThreshold t raw)

end Firewall

namespace Firewall

/-- ASCII word character, the `\w` class of the `regex` crate restricted to
the ASCII inputs the detectors target. -/
def isWordChar (c : Char) : Bool := c.isAlphanum || c = '_'

/-- ASCII hexadecimal digit, the class `[0-9a-fA-F]`. -/
def isHexChar (c : Char) : Bool :=
  c.isDigit || ('a' ≤ c && c ≤ 'f') || ('A' ≤ c && c ≤ 'F')

/-- Lower-case an ASCII letter, leaving other characters unchanged
(the semantics of Rust `eq_ignore_ascii_case` / `to_lowercase` on ASCII). -/
def asciiLower (c : Char) : Char :=
  if 'A' ≤ c && c ≤ 'Z' then Char.ofNat (c.toNat + 32) else c

/-- Lower-case every character of a list (ASCII). -/
def toLowerAscii (cs : List Char) : List Char := cs.map asciiLower

/-- Case-insensitive equality of character lists, modelling
`str::eq_ignore_ascii_case`. -/
def eqIgnoreAsciiCase (a b : List Char) : Bool := toLowerAscii a == toLowerAscii b

/-- Numeric value of a list of decimal digit characters, modelling a
successful `str::parse` of an all-digit token. -/
def natOfDigits (ds : List Char) : ℕ :=
  ds.foldl (fun a c => a * 10 + (c.toNat - '0'.toNat)) 0

/-- Numeric value of a list of hexadecimal digit characters. -/
def natOfHexDigits (ds : List Char) : ℕ :=
  ds.foldl
    (fun a c =>
      a * 16 +
        (if c.isDigit then c.toNat - '0'.toNat
         else if 'a' ≤ c && c ≤ 'f' then c.toNat - 'a'.toNat + 10
         else c.toNat - 'A'.toNat + 10))
    0

/-- Maximal runs of word characters of a text.  A regex of the shape
`\b(token)\b` whose token alphabet consists of word characters can only
match a whole such run (a partial run is flanked by a word character, which
refutes the `\b` anchor), so the token scans of the source are embedded as
filters over these runs. -/
def wordRuns (cs : List Char) : List (List Char) :=
  (cs.splitOnP (fun c => !isWordChar c)).filter (fun r => !r.isEmpty)

/-- Substring test, modelling `str::contains` of a literal pattern. -/
def containsSub (pat : List Char) : List Char → Bool
  | [] => pat.isEmpty
  | c :: rest => pat.isPrefixOf (c :: rest) || containsSub pat rest

/-- Auxiliary loop for `removeAllOcc`; the fuel is an upper bound on the
number of characters still to inspect. -/
def removeAllOccGo (t : List Char) : ℕ → List Char → List Char
  | _, [] => []
  | 0, cs => cs
  | fuel + 1, c :: cs =>
      if t.isPrefixOf (c :: cs) then removeAllOccGo t fuel (cs.drop (t.length - 1))
      else c :: removeAllOccGo t fuel cs

/-- Remove every occurrence of a non-empty pattern, left to right and without
overlap, modelling `str::replace(pattern, "")`. -/
def removeAllOcc (t cs : List Char) : List Char :=
  if t.isEmpty then cs else removeAllOccGo t cs.length cs

/-- Numerators of the `KNOWN_CONSTANTS` table of `detectors/cipher.rs`
(lines 22-33): the 20-significant-digit decimal literals of the source,
expressed over the common denominator `constDen = 10 ^ 19`. -/
def knownConstants : List (String × ℕ) :=
  [("phi", 16180339887498948482),
   ("phi_minus_1", 6180339887498948482),
   ("pi", 31415926535897932385),
   ("e", 27182818284590452354),
   ("sqrt2", 14142135623730950488),
   ("sqrt3", 17320508075688772935),
   ("sqrt5", 22360679774997896964),
   ("ln2", 6931471805599453094),
   ("ln10", 23025850929940456840),
   ("euler_gamma", 5772156649015328606)]

/-- Common denominator of the constant table entries. -/
def constDen : ℕ := 10 ^ 19

/-- The `SCALES` table of `detectors/cipher.rs` (line 36):
`[1e3, 1e6, 1e7, 1e8, 1e9, 1e10, 1e12]`, exact integers. -/
def scalesNat : List ℕ :=
  [1000, 1000000, 10000000, 100000000, 1000000000, 10000000000, 1000000000000]

/-- Truncation of `const * scale` to an integer, modelling
`(*const_val * scale) as u64` (a cast toward zero of a positive value).
For every pair of the two tables the fractional part of the product is far
from the integers, so the `f64` rounding of the source never moves the
truncated value; the exact rational computation is therefore faithful. -/
def expectedFor (num s : ℕ) : ℕ := num * s / constDen

/-- Tolerance `(scale / 1000.0) as u64`; exact for every scale of the table. -/
def toleranceFor (s : ℕ) : ℕ := s / 1000

/-- Model of `CipherDetector::check_constant` (`detectors/cipher.rs` lines
71-85).  The source returns `(name, scale, confidence)`; the model returns
`(name, scale, diff, tolerance)` and the confidence
`1 - diff / (tolerance + 1)` is attached by `mkMathConstantFinding`. -/
def checkConstant (value : ℕ) : Option (String × ℕ × ℕ × ℕ) :=
  knownConstants.findSome? fun c =>
    scalesNat.findSome? fun s =>
      if Nat.dist value (expectedFor c.2 s) ≤ toleranceFor s then
        some (c.1, s, Nat.dist value (expectedFor c.2 s), toleranceFor s)
      else none

/-- The finding pushed by `detect_math_constants` for a matched token. -/
def mkMathConstantFinding (loc : String) (v : ℕ) (r : String × ℕ × ℕ × ℕ) : Finding :=
  { finding_type := "math_constant_seed"
    value := .obj [("number", .num v), ("constant", .str r.1), ("scale", .num (r.2.1 : ℚ))]
    confidence := 1 - (r.2.2.1 : ℚ) / ((r.2.2.2 : ℚ) + 1)
    location := loc
    severity := .high }

/-- Integer tokens of 6 to 12 digits, the scan
`\b(\d{6,12})\b` of `detect_math_constants`. -/
def numberTokens (cs : List Char) : List (List Char) :=
  (wordRuns cs).filter (fun r => r.all Char.isDigit && decide (6 ≤ r.length) && decide (r.length ≤ 12))

/-- Model of `CipherDetector::detect_math_constants`
(`detectors/cipher.rs` lines 93-119). -/
def detectMathConstants (loc : String) (content : List Char) : List Finding :=
  (numberTokens content).filterMap fun ds =>
    (checkConstant (natOfDigits ds)).map (mkMathConstantFinding loc (natOfDigits ds))

/-- Emission predicate of `check_constant` in closed form: some table pair
matches under the truncated center (this is what the code computes). -/
def codeMathMatches (v : ℕ) : Bool :=
  knownConstants.any fun c =>
    scalesNat.any fun s => Nat.dist v (expectedFor c.2 s) ≤ toleranceFor s

/-- Modelled from the claim's words: the nearest integer to `const * scale`,
`round(c·s) = ⌊c·s + 1/2⌋` (no tie occurs for any pair of the tables). -/
def roundConstMul (num s : ℕ) : ℕ := (2 * num * s + constDen) / (2 * constDen)

/-- Modelled from the claim's words: `|v − round(c·s)| ≤ s/1000` for some
constant and scale of the tables (`s/1000` is exact for every scale). -/
def specMathMatchesRound (v : ℕ) : Bool :=
  knownConstants.any fun c =>
    scalesNat.any fun s => Nat.dist v (roundConstMul c.2 s) ≤ toleranceFor s

end Firewall

namespace Firewall

/-- MD5 hash tokens: the scan `\b([0-9a-fA-F]{32})\b` of `detect_self_reference`
(maximal word runs consisting of exactly 32 hexadecimal characters). -/
def md5Tokens (cs : List Char) : List (List Char) :=
  (wordRuns cs).filter (fun r => decide (r.length = 32) && r.all isHexChar)

/-- SHA-256 hash tokens: the scan `\b([0-9a-fA-F]{64})\b`. -/
def sha256Tokens (cs : List Char) : List (List Char) :=
  (wordRuns cs).filter (fun r => decide (r.length = 64) && r.all isHexChar)

/-- The finding pushed by `detect_self_reference` for a verified hash. -/
def mkSelfRefFinding (alg loc : String) (t : List Char) : Finding :=
  { finding_type := "self_referencing_hash"
    value := .obj [("hash", .str (String.mk t)), ("algorithm", .str alg), ("verified", .bool true)]
    confidence := q0_99
    location := loc
    severity := .critical }

/-- Model of `CipherDetector::detect_self_reference` (`detectors/cipher.rs`
lines 155-211).  The MD5 and SHA-256 digest computations live in external
crates (`md5`, `sha2`), outside this repository; they are abstracted as the
function parameters `md5Hex` and `sha256Hex` (content bytes to lower-case hex
digest, the `format!("{:x}", …)` of the source), and every theorem about this
function holds for arbitrary digest functions.  `selfRefArm` is the shape
shared by the two hash loops of the source: for each token, remove its
occurrences, recompute the digest, and report on a case-insensitive match. -/
def selfRefArm (alg : String) (dig : List Char → List Char) (loc : String)
    (content : List Char) (tokens : List (List Char)) : List Finding :=
  tokens.filterMap fun t =>
    if eqIgnoreAsciiCase (dig (removeAllOcc t content)) t then
      some (mkSelfRefFinding alg loc t)
    else none

/-- Model of `CipherDetector::detect_self_reference`, both hash arms. -/
def detectSelfReference (md5Hex sha256Hex : List Char → List Char) (loc : String)
    (content : List Char) : List Finding :=
  selfRefArm "md5" md5Hex loc content (md5Tokens content)
    ++ selfRefArm "sha256" sha256Hex loc content (sha256Tokens content)

/-- Model of `CipherDetector::is_power_of_2`:
`n > 0 && (n & (n - 1)) == 0`. -/
def isPow2 (n : ℕ) : Bool := decide (0 < n) && decide (Nat.land n (n - 1) = 0)

/-- The finding pushed by `detect_grid_patterns` for an all-power-of-two
dimension tuple. -/
def mkGridFinding (loc : String) (ds : List ℕ) : Finding :=
  { finding_type := "power2_grid"
    value := .obj [("dimensions", .arr (ds.map (fun d => .num (d : ℚ)))),
                   ("total_cells", .num ((ds.foldl (· * ·) 1 : ℕ) : ℚ))]
    confidence := q0_9
    location := loc
    severity := .medium }

/-- Model of `CipherDetector::detect_grid_patterns` (`detectors/cipher.rs`
lines 122-152) over the parsed dimension tuples extracted by the
`(\d+)\s*[xX×]\s*(\d+)(?:\s*[xX×]\s*(\d+))?` scan; the tuples are taken as
an input so the theorems quantify over every possible extraction. -/
def detectGridPatterns (loc : String) (dims : List (List ℕ)) : List Finding :=
  dims.filterMap fun ds => if ds.all isPow2 then some (mkGridFinding loc ds) else none

/-- Parse a hexadecimal string as `u128::from_str_radix(…, 16)` does:
fails on an empty string, a non-hex character, or overflow past `2^128`. -/
def parseHexU128 (s : List Char) : Option ℕ :=
  if !s.isEmpty && s.all isHexChar && decide (natOfHexDigits s < 2 ^ 128) then
    some (natOfHexDigits s)
  else none

/-- Residues modulo `m` of the GUIDs that parse as hexadecimal after the
hyphens are removed (`detect_guid_patterns`, the `values` vector). -/
def guidResidues (guids : List String) (m : ℕ) : List ℕ :=
  guids.filterMap fun g => (parseHexU128 (g.data.filter (fun c => c ≠ '-'))).map (· % m)

/-- Count of the most common residue.  The source takes
`counts.iter().max_by_key(…)` over a `HashMap`, whose choice among tied
residues is iteration-order dependent; the count itself is order
independent. -/
def maxResidueCount (values : List ℕ) : ℕ :=
  values.foldl (fun acc v => max acc (values.count v)) 0

/-- A residue attaining the maximal count (the first occurrence; the source's
choice among ties is `HashMap`-order dependent, see `maxResidueCount`). -/
def mostCommonResidue (values : List ℕ) : ℕ :=
  (values.find? (fun v => values.count v = maxResidueCount values)).getD 0

/-- The `test_moduli` table of `detect_guid_patterns`. -/
def testModuli : List ℕ := [64, 256, 1024, 131072]

/-- Model of `CipherDetector::detect_guid_patterns` (`detectors/cipher.rs`
lines 214-271) over the GUID match texts extracted by the UUID scan. -/
def detectGuidPatterns (loc : String) (guids : List String) : List Finding :=
  if guids.length < 3 then []
  else
    testModuli.filterMap fun m =>
      let values := guidResidues guids m
      if values.isEmpty then none
      else
        let cnt := maxResidueCount values
        let ratio : ℚ := (cnt : ℚ) / (values.length : ℚ)
        if q0_3 < ratio then
          some { finding_type := "guid_modular_correlation"
                 value := .obj [("modulus", .num (m : ℚ)),
                                ("common_value", .num (mostCommonResidue values : ℚ)),
                                ("count", .num (cnt : ℚ)),
                                ("total", .num (guids.length : ℚ)),
                                ("ratio", .num ratio)]
                 confidence := ratio
                 location := loc
                 severity := .high }
        else none

/-- The `sequence_keywords` table of `CipherDetector::new`; the source holds
it in a `HashMap` whose iteration order is unspecified, modelled here in
insertion order. -/
def sequenceKeywords : List (String × String) :=
  [("golden", "weyl_golden"), ("halton", "halton"), ("sobol", "sobol"),
   ("quasi", "quasi_random"), ("weyl", "weyl")]

/-- Identifier tokens: the scan `\b([a-zA-Z_][a-zA-Z0-9_]{2,30})\b` of
`detect_sequence_patterns` (maximal word runs of length 3 to 31 whose first
character is a letter or underscore). -/
def identifierTokens (cs : List Char) : List (List Char) :=
  (wordRuns cs).filter fun r =>
    match r with
    | c :: _ => (c.isAlpha || c = '_') && decide (3 ≤ r.length) && decide (r.length ≤ 31)
    | [] => false

/-- Model of `CipherDetector::detect_sequence_patterns` (`detectors/cipher.rs`
lines 274-319). -/
def detectSequencePatterns (loc : String) (content : List Char) : List Finding :=
  (sequenceKeywords.filterMap fun kw =>
    if containsSub kw.1.data (toLowerAscii content) then
      some { finding_type := "sequence_indicator"
             value := .obj [("keyword", .str kw.1), ("sequence_type", .str kw.2)]
             confidence := q0_7
             location := loc
             severity := .medium }
    else none)
  ++ ((identifierTokens content).filterMap fun id =>
    if containsSub "bacon".data (toLowerAscii id) || containsSub "cipher".data (toLowerAscii id) then
      some { finding_type := "cipher_hint_identifier"
             value := .obj [("identifier", .str (String.mk id))]
             confidence := q0_7
             location := loc
             severity := .low }
    else none)

/-- Inputs of one cipher-detector file analysis: the file text itself, the
abstract digest functions (external crates), and the extraction results of
the two regex scans not embedded as character scanners (dimension tuples and
GUID matches), over-approximated as arbitrary inputs. -/
structure CipherInput where
  loc : String
  content : List Char
  md5Hex : List Char → List Char
  sha256Hex : List Char → List Char
  dims : List (List ℕ)
  guids : List String

/-- Raw (pre-filter) findings of `CipherDetector::analyze_file`
(`detectors/cipher.rs` lines 322-335). -/
def cipherRawFindings (i : CipherInput) : List Finding :=
  detectMathConstants i.loc i.content ++ detectGridPatterns i.loc i.dims
    ++ detectSelfReference i.md5Hex i.sha256Hex i.loc i.content
    ++ detectGuidPatterns i.loc i.guids
    ++ detectSequencePatterns i.loc i.content

end Firewall

namespace Firewall

/-- PNG magic bytes `89 50 4E 47`. -/
def pngMagic : List ℕ := [137, 80, 78, 71]

/-- PNG IEND chunk signature `00 00 00 00 49 45 4E 44` (length + type). -/
def iendSig : List ℕ := [0, 0, 0, 0, 73, 69, 78, 68]

/-- JPEG magic bytes `FF D8 FF`. -/
def jpegMagic : List ℕ := [255, 216, 255]

/-- JPEG end-of-image marker `FF D9`. -/
def eoiSig : List ℕ := [255, 217]

/-- First position where `sig` occurs as a contiguous window, modelling
`data.windows(n).position(…)`. -/
def firstMatchPos (sig : List ℕ) : List ℕ → Option ℕ
  | [] => none
  | a :: t => if sig.isPrefixOf (a :: t) then some 0 else (firstMatchPos sig t).map (· + 1)

/-- Last position where `sig` occurs as a contiguous window, modelling
`data.windows(n).rposition(…)`. -/
def lastMatchPos (sig : List ℕ) : List ℕ → Option ℕ
  | [] => none
  | a :: t =>
      match lastMatchPos sig t with
      | some p => some (p + 1)
      | none => if sig.isPrefixOf (a :: t) then some 0 else none

/-- The PNG branch of `StegoDetector::detect_eof_data` (`detectors/stego.rs`
lines 26-57): data past `IEND` position + 12 (signature + CRC) is hidden. -/
def detectEofPng (loc : String) (data : List ℕ) : List Finding :=
  if pngMagic.isPrefixOf data then
    match firstMatchPos iendSig data with
    | some pos =>
        if pos + 12 < data.length then
          [{ finding_type := "eof_hidden_data"
             value := .obj [("file_type", .str "PNG"),
                            ("extra_bytes", .num ((data.length - (pos + 12) : ℕ) : ℚ)),
                            ("offset", .num ((pos + 12 : ℕ) : ℚ))]
             confidence := q0_9
             location := loc
             severity := .high }]
        else []
    | none => []
  else []

/-- The JPEG branch of `StegoDetector::detect_eof_data` (`detectors/stego.rs`
lines 59-83): data past the last `FF D9` marker is hidden. -/
def detectEofJpeg (loc : String) (data : List ℕ) : List Finding :=
  if jpegMagic.isPrefixOf data then
    match lastMatchPos eoiSig data with
    | some pos =>
        if pos + 2 < data.length then
          [{ finding_type := "eof_hidden_data"
             value := .obj [("file_type", .str "JPEG"),
                            ("extra_bytes", .num ((data.length - (pos + 2) : ℕ) : ℚ)),
                            ("offset", .num ((pos + 2 : ℕ) : ℚ))]
             confidence := q0_9
             location := loc
             severity := .high }]
        else []
    | none => []
  else []

/-- Model of `StegoDetector::detect_eof_data` (both container branches). -/
def detectEofData (loc : String) (data : List ℕ) : List Finding :=
  detectEofPng loc data ++ detectEofJpeg loc data

/-- Lines of a text, modelling Rust `str::lines` (split on `\n`, no final
empty line for a trailing newline, a trailing `\r` stripped per line). -/
def splitLines (cs : List Char) : List (List Char) :=
  if cs.isEmpty then []
  else
    let parts := cs.splitOn '\n'
    let parts := if parts.getLast? = some [] then parts.dropLast else parts
    parts.map fun l => if l.getLast? = some '\r' then l.dropLast else l

/-- Trailing whitespace of a line in reversed order, modelling
`line.chars().rev().take_while(is_whitespace).collect()` (ASCII whitespace). -/
def trailingWs (line : List Char) : List Char :=
  line.reverse.takeWhile Char.isWhitespace

/-- Model of `StegoDetector::detect_whitespace_encoding` (`detectors/stego.rs`
lines 90-124): count lines whose trailing whitespace is longer than 2 and
mixes tabs with spaces; more than 5 such lines is suspicious. -/
def detectWhitespaceEncoding (loc : String) (content : List Char) : List Finding :=
  let counts :=
    (splitLines content).foldl
      (fun acc line =>
        let t := trailingWs line
        if decide (2 < t.length) && t.any (fun c => c = '\t') && t.any (fun c => c = ' ') then
          (acc.1 + 1, acc.2 + t.length)
        else acc)
      ((0 : ℕ), (0 : ℕ))
  if 5 < counts.1 then
    [{ finding_type := "whitespace_encoding"
       value := .obj [("suspicious_lines", .num (counts.1 : ℚ)),
                      ("total_trailing_chars", .num (counts.2 : ℚ))]
       confidence := min ((counts.1 : ℚ) / 100) q0_95
       location := loc
       severity := .medium }]
  else []

/-- The homoglyph table of `StegoDetector::detect_homoglyphs`
(`detectors/stego.rs` lines 131-151). -/
def homoglyphTable : List (Char × Char × String) :=
  [('а', 'a', "Cyrillic"), ('е', 'e', "Cyrillic"), ('о', 'o', "Cyrillic"),
   ('р', 'p', "Cyrillic"), ('с', 'c', "Cyrillic"), ('х', 'x', "Cyrillic"),
   ('Α', 'A', "Greek"), ('Β', 'B', "Greek"), ('Ε', 'E', "Greek"),
   ('Η', 'H', "Greek"), ('Ι', 'I', "Greek"), ('Κ', 'K', "Greek"),
   ('Μ', 'M', "Greek"), ('Ν', 'N', "Greek"), ('Ο', 'O', "Greek"),
   ('Ρ', 'P', "Greek"), ('Τ', 'T', "Greek"), ('Χ', 'X', "Greek"),
   ('Ζ', 'Z', "Greek")]

/-- Model of `StegoDetector::detect_homoglyphs` (`detectors/stego.rs`
lines 127-182). -/
def detectHomoglyphs (loc : String) (content : List Char) : List Finding :=
  let found := homoglyphTable.filter (fun e => content.contains e.1)
  if found.isEmpty then []
  else
    [{ finding_type := "unicode_homoglyph"
       value := .obj [("homoglyphs", .arr (found.map fun e =>
         .obj [("fake", .str (String.mk [e.1])), ("real", .str (String.mk [e.2.1])),
               ("script", .str e.2.2)]))]
       confidence := q0_85
       location := loc
       severity := .high }]

/-- Inputs of one stego-detector file analysis: the raw bytes (`fs::read`)
and the text decoding (`fs::read_to_string`), each absent when the host read
fails. -/
structure StegoInput where
  loc : String
  bytes : Option (List ℕ)
  text : Option (List Char)

/-- Raw (pre-filter) findings of `StegoDetector::analyze_file`
(`detectors/stego.rs` lines 185-193). -/
def stegoRawFindings (i : StegoInput) : List Finding :=
  (match i.bytes with | some d => detectEofData i.loc d | none => [])
    ++ (match i.text with | some c => detectWhitespaceEncoding i.loc c | none => [])
    ++ (match i.text with | some c => detectHomoglyphs i.loc c | none => [])

end Firewall

namespace Firewall

/-- Maximal run of decimal digits at the head of a list, with the rest. -/
def digitRun (cs : List Char) : List Char × List Char :=
  (cs.takeWhile Char.isDigit, cs.dropWhile Char.isDigit)

/-- Parse one IP octet candidate: a maximal digit run of length 1 to 3
(the `\d{1,3}` of the IP scan; a longer run cannot match because the
following character would be a digit). -/
def parseOctetRun (cs : List Char) : Option (List Char × List Char) :=
  let r := digitRun cs
  if !r.1.isEmpty && decide (r.1.length ≤ 3) then some r else none

/-- Parse an octet followed by a literal dot. -/
def octetDot (cs : List Char) : Option (List Char × List Char) :=
  match parseOctetRun cs with
  | some (r, '.' :: rest) => some (r ++ ['.'], rest)
  | _ => none

/-- Try to match `\d{1,3}\.\d{1,3}\.\d{1,3}\.\d{1,3}\b` at the head of the
list, returning the matched text and the remainder. -/
def parseIpAt (cs : List Char) : Option (List Char × List Char) :=
  match octetDot cs with
  | none => none
  | some (p1, cs1) =>
    match octetDot cs1 with
    | none => none
    | some (p2, cs2) =>
      match octetDot cs2 with
      | none => none
      | some (p3, cs3) =>
        match parseOctetRun cs3 with
        | none => none
        | some (r4, rest) =>
          match rest with
          | [] => some (p1 ++ p2 ++ p3 ++ r4, [])
          | c :: _ => if isWordChar c then none else some (p1 ++ p2 ++ p3 ++ r4, rest)

/-- Scanning loop of the dotted-quad IP extraction
`\b(\d{1,3}\.\d{1,3}\.\d{1,3}\.\d{1,3})\b` (`detectors/network.rs` line 30):
left to right, a match must start at a word boundary, and scanning resumes
after each match.  The fuel is an upper bound on the characters left. -/
def ipScanGo : ℕ → Option Char → List Char → List String
  | 0, _, _ => []
  | _, _, [] => []
  | fuel + 1, prev, c :: rest =>
      let boundaryOk := match prev with
        | none => true
        | some p => !isWordChar p
      if boundaryOk && c.isDigit then
        match parseIpAt (c :: rest) with
        | some (tok, after) => String.mk tok :: ipScanGo fuel (some '9') after
        | none => ipScanGo fuel (some c) rest
      else ipScanGo fuel (some c) rest

/-- Dotted-quad IP tokens of a text. -/
def ipTokens (cs : List Char) : List String := ipScanGo cs.length none cs

/-- The `safe_ips` table of `NetworkDetector::detect_hardcoded_ips`
(`detectors/network.rs` lines 110-113). -/
def safeIps : List String :=
  ["127.0.0.1", "0.0.0.0", "255.255.255.255", "192.168.0.1", "192.168.1.1", "10.0.0.1"]

/-- Parse a `u8` from an all-digit token piece, modelling
`str::parse::<u8>().ok()` on the pieces an IP token yields. -/
def parseU8 (s : List Char) : Option ℕ :=
  if !s.isEmpty && s.all Char.isDigit && decide (natOfDigits s ≤ 255) then
    some (natOfDigits s)
  else none

/-- The octets of an IP token: `ip.split('.').filter_map(parse::<u8>().ok())`. -/
def ipOctets (t : String) : List ℕ := (t.data.splitOn '.').filterMap parseU8

/-- The RFC1918 private-range test of `detect_hardcoded_ips` (lines 126-133):
applied only when all four octet pieces parse as `u8`. -/
def isPrivateIp (t : String) : Bool :=
  match ipOctets t with
  | [o0, o1, _, _] =>
      decide (o0 = 10) || (decide (o0 = 172) && decide (16 ≤ o1) && decide (o1 ≤ 31))
        || (decide (o0 = 192) && decide (o1 = 168))
  | _ => false

/-- The collection loop of `detect_hardcoded_ips` (lines 115-136): skip safe
and already-seen IPs, skip private ranges, keep the rest.  The source stores
the survivors in a `HashSet`; the model keeps first-seen order, and the
theorems about the finding treat the list as a set.
`ipCollectStep` is one step of the loop of lines 117-136. -/
def ipCollectStep (acc : List String) (ip : String) : List String :=
  if safeIps.contains ip || acc.contains ip then acc
  else if isPrivateIp ip then acc
  else acc ++ [ip]

/-- The `found_ips` accumulation over the IP tokens. -/
def collectPublicIps (content : List Char) : List String :=
  (ipTokens content).foldl ipCollectStep []

/-- Model of `NetworkDetector::detect_hardcoded_ips` (`detectors/network.rs`
lines 106-156). -/
def detectHardcodedIps (loc : String) (content : List Char) : List Finding :=
  let found := collectPublicIps content
  if found.isEmpty then []
  else
    [{ finding_type := "hardcoded_public_ip"
       value := .obj [("ips", .arr (found.map .str)), ("count", .num (found.length : ℚ))]
       confidence := q0_7
       location := loc
       severity := .medium }]

/-- Modelled from the claim's words: an IP token is excluded when it is one
of the six listed literals or lies in an RFC1918 private range. -/
def ipExcluded (t : String) : Bool := safeIps.contains t || isPrivateIp t

/-- One step of first-occurrence deduplication. -/
def dedupStep (acc : List String) (x : String) : List String :=
  if acc.contains x then acc else acc ++ [x]

/-- Keep the first occurrence of each element. -/
def dedupFirst (l : List String) : List String :=
  l.foldl dedupStep []

/-- Modelled from the claim's words: the unique IP tokens that survive the
exclusions, in first-seen order. -/
def specRemainingIps (content : List Char) : List String :=
  dedupFirst ((ipTokens content).filter (fun t => !ipExcluded t))

/-- First position of a character-list pattern inside a text, modelling the
position of the first match of `str::find`-style substring search. -/
def indexOfSub (pat : List Char) : List Char → Option ℕ
  | [] => if pat.isEmpty then some 0 else none
  | c :: rest =>
      if pat.isPrefixOf (c :: rest) then some 0 else (indexOfSub pat rest).map (· + 1)

/-- The second piece of `str::split(pattern)`: the text between the first and
second occurrences of the pattern (`url.split("://").nth(1)`). -/
def secondSplitPiece (pat cs : List Char) : Option (List Char) :=
  (indexOfSub pat cs).map fun i =>
    let rest := cs.drop (i + pat.length)
    match indexOfSub pat rest with
    | some j => rest.take j
    | none => rest

/-- The consonant set of `NetworkDetector::consonant_ratio`. -/
def consonantsList : List Char := "bcdfghjklmnpqrstvwxyz".data

/-- Model of `NetworkDetector::consonant_ratio` (`detectors/network.rs`
lines 38-48). -/
def consonantRatio (domain : List Char) : ℚ :=
  let letters := (toLowerAscii domain).filter Char.isAlpha
  if letters.isEmpty then 0
  else ((letters.filter (fun c => consonantsList.contains c)).length : ℚ) / (letters.length : ℚ)

/-- Model of `NetworkDetector::detect_dga_domains` (`detectors/network.rs`
lines 51-103) over the URL match texts of the scan
`https?://([a-zA-Z0-9][-a-zA-Z0-9]*\.)+[a-zA-Z]{2,}` and the match texts of
the base64-domain scan `[A-Za-z0-9+/]{20,}\.(com|net|org|io|xyz)`, taken as
inputs so the theorems quantify over every possible extraction. -/
def detectDgaDomains (loc : String) (urls b64Domains : List String) : List Finding :=
  (urls.filterMap fun url =>
    match secondSplitPiece "://".data url.data with
    | none => none
    | some s =>
      let domain := s.takeWhile (fun c => c ≠ '/')
      let dnt := domain.takeWhile (fun c => c ≠ '.')
      let ratio := consonantRatio dnt
      if decide (q0_7 < ratio) && dnt.any Char.isDigit && decide (10 < dnt.length) then
        some { finding_type := "potential_dga_domain"
               value := .obj [("domain", .str (String.mk domain)),
                              ("consonant_ratio", .num ratio),
                              ("length", .num (dnt.length : ℚ))]
               confidence := q0_75
               location := loc
               severity := .high }
      else none)
  ++ (b64Domains.map fun d =>
      { finding_type := "base64_domain"
        value := .obj [("domain", .str d)]
        confidence := q0_8
        location := loc
        severity := .high })

/-- The `suspicious_ports` table of `detect_suspicious_ports`
(`detectors/network.rs` lines 163-169). -/
def suspiciousPorts : List ℕ :=
  [4444, 5555, 6666, 7777, 8888, 9999, 1337, 31337, 4443, 8443, 6667, 6668, 6669, 5900, 5901]

/-- Parse a `u16` from a digit capture, modelling `str::parse::<u16>().ok()`. -/
def parseU16 (s : List Char) : Option ℕ :=
  if !s.isEmpty && s.all Char.isDigit && decide (natOfDigits s ≤ 65535) then
    some (natOfDigits s)
  else none

/-- The collection loop of `detect_suspicious_ports` over the digit captures
of the scan `:(\d{2,5})\b`, taken as an input. -/
def collectSuspiciousPorts (caps : List (List Char)) : List ℕ :=
  caps.foldl
    (fun acc c =>
      match parseU16 c with
      | some p => if suspiciousPorts.contains p && !acc.contains p then acc ++ [p] else acc
      | none => acc)
    []

/-- Model of `NetworkDetector::detect_suspicious_ports` (`detectors/network.rs`
lines 159-199). -/
def detectSuspiciousPortsF (loc : String) (caps : List (List Char)) : List Finding :=
  let found := collectSuspiciousPorts caps
  if found.isEmpty then []
  else
    [{ finding_type := "suspicious_ports"
       value := .obj [("ports", .arr (found.map (fun p => .num (p : ℚ)))),
                      ("count", .num (found.length : ℚ))]
       confidence := q0_75
       location := loc
       severity := .high }]

/-- Inputs of one network-detector file analysis. -/
structure NetworkInput where
  loc : String
  content : List Char
  urls : List String
  b64Domains : List String
  portCaptures : List (List Char)

/-- Raw (pre-filter) findings of `NetworkDetector::analyze_file`
(`detectors/network.rs` lines 202-212). -/
def networkRawFindings (i : NetworkInput) : List Finding :=
  detectDgaDomains i.loc i.urls i.b64Domains
    ++ detectHardcodedIps i.loc i.content
    ++ detectSuspiciousPortsF i.loc i.portCaptures

end Firewall

namespace Firewall

/-- The closed set of event-handler names of the scan
`\b(on(?:click|load|…))\s*=\s*["'][^"']*["']` (`detectors/svg.rs` lines
41-43), in the alternation order of the source (the set is prefix-free, so
at most one alternative can match at a position). -/
def eventHandlerNames : List String :=
  ["click", "load", "error", "mouseover", "mouseout", "mousemove", "mousedown",
   "mouseup", "focus", "blur", "change", "submit", "reset", "select", "abort",
   "beforeunload", "unload", "resize", "scroll", "keydown", "keyup", "keypress",
   "drag", "drop", "copy", "cut", "paste", "animationstart", "animationend",
   "transitionend"]

/-- Case-insensitive literal match at the head of a list, returning the
actually consumed characters (the capture keeps the original case) and the
remainder. -/
def matchCI : List Char → List Char → Option (List Char × List Char)
  | [], rest => some ([], rest)
  | _ :: _, [] => none
  | p :: ps, c :: cr =>
      if asciiLower c = asciiLower p then (matchCI ps cr).map (fun r => (c :: r.1, r.2))
      else none

/-- Match the attribute-value suffix `\s*=\s*["'][^"']*["']` at the head of
the list, returning the consumed characters and the remainder. -/
def matchHandlerSuffix (cs : List Char) : Option (List Char × List Char) :=
  let ws1 := cs.takeWhile Char.isWhitespace
  match cs.dropWhile Char.isWhitespace with
  | '=' :: r2 =>
    let ws2 := r2.takeWhile Char.isWhitespace
    match r2.dropWhile Char.isWhitespace with
    | q :: r4 =>
      if q == '"' || q == '\'' then
        let body := r4.takeWhile (fun c => c ≠ '"' && c ≠ '\'')
        match r4.dropWhile (fun c => c ≠ '"' && c ≠ '\'') with
        | q2 :: r6 => some (ws1 ++ '=' :: ws2 ++ q :: body ++ [q2], r6)
        | [] => none
      else none
    | [] => none
  | _ => none

/-- Match one event-handler attribute at the head of the list: `on` followed
by a name of the closed set and a quoted value.  Returns
(full match, handler capture, remainder). -/
def matchEventHandlerAt (cs : List Char) : Option (List Char × List Char × List Char) :=
  match matchCI "on".data cs with
  | none => none
  | some (onChars, r1) =>
    eventHandlerNames.findSome? fun name =>
      match matchCI name.data r1 with
      | none => none
      | some (nameChars, r2) =>
        match matchHandlerSuffix r2 with
        | none => none
        | some (suffix, rest) =>
            some (onChars ++ nameChars ++ suffix, onChars ++ nameChars, rest)

/-- Scanning loop of the event-handler extraction: left to right, a match
must start at a word boundary (`\b`), and scanning resumes after each match
(whose final character is a quote, a non-word character). -/
def ehScanGo : ℕ → Option Char → List Char → List (List Char × List Char)
  | 0, _, _ => []
  | _, _, [] => []
  | fuel + 1, prev, c :: rest =>
      let boundaryOk := match prev with
        | none => true
        | some p => !isWordChar p
      if boundaryOk then
        match matchEventHandlerAt (c :: rest) with
        | some (full, cap, after) => (full, cap) :: ehScanGo fuel (some '"') after
        | none => ehScanGo fuel (some c) rest
      else ehScanGo fuel (some c) rest

/-- Event-handler matches of a text: (full match, handler capture) pairs. -/
def eventHandlerCaptures (cs : List Char) : List (List Char × List Char) :=
  ehScanGo cs.length none cs

/-- The finding pushed by `detect_script_injection` for an event handler
(`detectors/svg.rs` lines 111-127). -/
def mkEventHandlerFinding (loc : String) (m : List Char × List Char) : Finding :=
  { finding_type := "svg_event_handler"
    value := .obj [("handler", .str (String.mk m.2)), ("full_match", .str (String.mk m.1))]
    confidence := q0_95
    location := loc
    severity := .critical }

/-- The event-handler arm of `SvgDetector::detect_script_injection`. -/
def detectEventHandlers (loc : String) (content : List Char) : List Finding :=
  (eventHandlerCaptures content).map (mkEventHandlerFinding loc)

/-- The script-tag arm of `detect_script_injection` (lines 92-108) over the
match texts of `(?i)<script[^>]*>[\s\S]*?</script>`, taken as inputs. -/
def detectScriptTags (loc : String) (ms : List String) : List Finding :=
  ms.map fun m =>
    { finding_type := "svg_script_tag"
      value := .obj [("preview", .str (String.mk (m.data.take 100))),
                     ("length", .num (m.data.length : ℚ))]
      confidence := q0_99
      location := loc
      severity := .critical }

/-- Model of `SvgDetector::detect_external_resources`, href part
(`detectors/svg.rs` lines 137-165) over the `xlink`-scan match texts. -/
def detectXlinkRefs (loc : String) (ms : List String) : List Finding :=
  ms.map fun m =>
    let isJs := containsSub "javascript:".data (toLowerAscii m.data)
    { finding_type := if isJs then "svg_javascript_href" else "svg_external_href"
      value := .obj [("href", .str m)]
      confidence := if isJs then q0_99 else q0_8
      location := loc
      severity := if isJs then .critical else .high }

/-- Model of `detect_external_resources`, `<use>` part (lines 168-183). -/
def detectUseTags (loc : String) (ms : List String) : List Finding :=
  ms.map fun m =>
    { finding_type := "svg_external_use"
      value := .obj [("tag", .str m)]
      confidence := q0_85
      location := loc
      severity := .high }

/-- Model of `SvgDetector::detect_data_uri`, data-URI part (lines 191-222). -/
def detectDataUris (loc : String) (ms : List String) : List Finding :=
  ms.map fun m =>
    let lower := toLowerAscii m.data
    let isHtml := containsSub "text/html".data lower
    let isJs := containsSub "javascript".data lower
    let isSvg := containsSub "svg+xml".data lower
    { finding_type := "svg_data_uri"
      value := .obj [("uri_preview", .str (String.mk (m.data.take 100))),
                     ("type", .str (if isJs then "javascript" else if isHtml then "html"
                                    else if isSvg then "nested_svg" else "other"))]
      confidence := q0_9
      location := loc
      severity := if isJs || isHtml then .critical else if isSvg then .high else .medium }

/-- Model of `detect_data_uri`, base64-signature part (lines 225-239). -/
def detectBase64Js (loc : String) (ms : List String) : List Finding :=
  ms.map fun m =>
    { finding_type := "svg_base64_js"
      value := .obj [("pattern", .str m)]
      confidence := q0_95
      location := loc
      severity := .critical }

/-- Model of `SvgDetector::detect_foreign_object` (lines 245-285). -/
def detectForeignObjects (loc : String) (ms : List String) : List Finding :=
  ms.map fun m =>
    let lower := toLowerAscii m.data
    let hasScript := containsSub "<script".data lower
    let hasIframe := containsSub "<iframe".data lower
    let hasForm := containsSub "<form".data lower
    { finding_type := "svg_foreign_object"
      value := .obj [("length", .num (m.data.length : ℚ)),
                     ("has_script", .bool hasScript),
                     ("has_iframe", .bool hasIframe),
                     ("has_form", .bool hasForm),
                     ("preview", .str (String.mk (m.data.take 200)))]
      confidence := if hasScript || hasIframe then q0_99 else q0_75
      location := loc
      severity := if hasScript || hasIframe then .critical
                  else if hasForm then .high else .medium }

/-- Model of `SvgDetector::detect_css_injection` (lines 288-308). -/
def detectCssInjection (loc : String) (ms : List String) : List Finding :=
  ms.map fun m =>
    { finding_type := "svg_css_injection"
      value := .obj [("pattern", .str m)]
      confidence := q0_85
      location := loc
      severity := .high }

/-- Model of `SvgDetector::detect_xxe` (lines 311-331). -/
def detectXxe (loc : String) (ms : List String) : List Finding :=
  ms.map fun m =>
    { finding_type := "svg_xxe"
      value := .obj [("entity", .str m)]
      confidence := q0_95
      location := loc
      severity := .critical }

/-- Model of `SvgDetector::detect_iframes` (lines 334-354). -/
def detectIframes (loc : String) (ms : List String) : List Finding :=
  ms.map fun m =>
    { finding_type := "svg_iframe"
      value := .obj [("tag", .str m)]
      confidence := q0_95
      location := loc
      severity := .critical }

/-- File name of a path: the component after the last `/`. -/
def fileNameOf (path : String) : List Char := (path.data.splitOn '/').getLastD []

/-- Extension of a path, modelling Rust `Path::extension`: the text after
the last `.` of the file name, where the leading character of the file name
does not count as a separator (`.svg` has no extension). -/
def extensionOf (path : String) : Option (List Char) :=
  match fileNameOf path with
  | [] => none
  | _ :: restName =>
      if restName.contains '.' then some (restName.reverse.takeWhile (fun c => c ≠ '.')).reverse
      else none

/-- Model of `SvgDetector::is_svg_file` (`detectors/svg.rs` lines 357-371):
extension `svg` (case-insensitive), or leading content `<?xml` together with
a `<svg` substring, or leading content `<svg`. -/
def isSvgFile (path : String) (content : List Char) : Bool :=
  let ext := match extensionOf path with
    | some e => toLowerAscii e
    | none => []
  if ext == "svg".data then true
  else
    ("<?xml".data.isPrefixOf (content.dropWhile Char.isWhitespace)
        && containsSub "<svg".data content)
      || "<svg".data.isPrefixOf (content.dropWhile Char.isWhitespace)

/-- Inputs of one SVG-detector file analysis: the path and text, plus the
match texts of the eight scans not embedded as character scanners, taken as
inputs so the theorems quantify over every possible extraction. -/
structure SvgInput where
  path : String
  content : List Char
  scriptTags : List String
  xlinks : List String
  useTags : List String
  dataUris : List String
  base64Js : List String
  foreignObjects : List String
  cssMatches : List String
  entityMatches : List String
  iframes : List String

/-- Raw (pre-filter) findings of `SvgDetector::analyze_file`
(`detectors/svg.rs` lines 374-393), gated on `is_svg_file`. -/
def svgRawFindings (i : SvgInput) : List Finding :=
  if isSvgFile i.path i.content then
    detectScriptTags i.path i.scriptTags ++ detectEventHandlers i.path i.content
      ++ detectXlinkRefs i.path i.xlinks ++ detectUseTags i.path i.useTags
      ++ detectDataUris i.path i.dataUris ++ detectBase64Js i.path i.base64Js
      ++ detectForeignObjects i.path i.foreignObjects
      ++ detectCssInjection i.path i.cssMatches
      ++ detectXxe i.path i.entityMatches ++ detectIframes i.path i.iframes
  else []

end Firewall

namespace Firewall

/-- Kernel-computable rational constant 5.5 (the entropy gate). -/
def q5_5 : ℚ := ⟨11, 2, by decide, by decide⟩

/-- Parse a `u64` from a digit capture, modelling `str::parse::<u64>().ok()`. -/
def parseU64 (s : List Char) : Option ℕ :=
  if !s.isEmpty && s.all Char.isDigit && decide (natOfDigits s < 2 ^ 64) then
    some (natOfDigits s)
  else none

/-- Model of `TemporalDetector::detect_time_bombs` (`detectors/temporal.rs`
lines 41-84) over the per-pattern match counts of the four comparison scans
and the date-literal match texts, taken as inputs. -/
def detectTimeBombs (loc : String) (comparisonCounts : List (String × ℕ))
    (dates : List String) : List Finding :=
  comparisonCounts.filterMap fun pc =>
    if decide (0 < pc.2) && !dates.isEmpty then
      some { finding_type := "potential_time_bomb"
             value := .obj [("pattern", .str pc.1),
                            ("dates_found", .arr (dates.map .str)),
                            ("comparison_count", .num (pc.2 : ℚ))]
             confidence := q0_7
             location := loc
             severity := .critical }
    else none

/-- Model of `TemporalDetector::detect_delayed_execution`
(`detectors/temporal.rs` lines 87-136) over the digit captures of the sleep
and timer scans. -/
def detectDelayedExecution (loc : String) (sleepCaptures timerCaptures : List (List Char)) :
    List Finding :=
  (sleepCaptures.filterMap fun c =>
    match parseU64 c with
    | some d =>
        if 60000 < d then
          some { finding_type := "long_sleep_delay"
                 value := .obj [("delay_ms", .num (d : ℚ)),
                                ("delay_seconds", .num ((d / 1000 : ℕ) : ℚ))]
                 confidence := q0_75
                 location := loc
                 severity := .high }
        else none
    | none => none)
  ++ (timerCaptures.filterMap fun c =>
    match parseU64 c with
    | some d =>
        if 300000 < d then
          some { finding_type := "long_timer_delay"
                 value := .obj [("delay_ms", .num (d : ℚ)),
                                ("delay_minutes", .num ((d / 60000 : ℕ) : ℚ))]
                 confidence := q0_7
                 location := loc
                 severity := .medium }
        else none
    | none => none)

/-- Model of `TemporalDetector::detect_scheduling` (`detectors/temporal.rs`
lines 139-169). -/
def detectScheduling (loc : String) (scheduleMatches : List String) (cronCount : ℕ) :
    List Finding :=
  if !scheduleMatches.isEmpty then
    [{ finding_type := "scheduling_detected"
       value := .obj [("keywords", .arr (scheduleMatches.map .str)),
                      ("cron_expressions", .num (cronCount : ℚ))]
       confidence := q0_6
       location := loc
       severity := .low }]
  else []

/-- Inputs of one temporal-detector file analysis. -/
structure TemporalInput where
  loc : String
  comparisonCounts : List (String × ℕ)
  dates : List String
  sleepCaptures : List (List Char)
  timerCaptures : List (List Char)
  scheduleMatches : List String
  cronCount : ℕ

/-- Raw (pre-filter) findings of `TemporalDetector::analyze_file`
(`detectors/temporal.rs` lines 172-182). -/
def temporalRawFindings (i : TemporalInput) : List Finding :=
  detectTimeBombs i.loc i.comparisonCounts i.dates
    ++ detectDelayedExecution i.loc i.sleepCaptures i.timerCaptures
    ++ detectScheduling i.loc i.scheduleMatches i.cronCount

/-- Zero-run counter of `AudioDetector::detect_audio_manipulation`
(`detectors/audio.rs` lines 138-149): runs longer than 100 zero bytes, a run
counted only when a nonzero byte ends it. -/
def countZeroRuns (bytes : List ℕ) : ℕ :=
  (bytes.foldl
    (fun acc b =>
      if b = 0 then (acc.1, acc.2 + 1)
      else (if 100 < acc.2 then acc.1 + 1 else acc.1, 0))
    ((0 : ℕ), (0 : ℕ))).1

/-- Model of `AudioDetector::detect_audio_manipulation` (`detectors/audio.rs`
lines 119-172): for a `.wav` file longer than the 44-byte header, more than 5
long zero runs in the first 10000 data bytes is anomalous. -/
def detectAudioManipulation (loc : String) (isWav : Bool) (bytes : Option (List ℕ)) :
    List Finding :=
  if isWav then
    match bytes with
    | some d =>
        if 44 < d.length then
          let zr := countZeroRuns ((d.drop 44).take 10000)
          if 5 < zr then
            [{ finding_type := "audio_anomaly"
               value := .obj [("file_type", .str "WAV"), ("zero_runs", .num (zr : ℚ))]
               confidence := q0_65
               location := loc
               severity := .medium }]
          else []
        else []
    | none => []
  else []

/-- Model of `AudioDetector::detect_ultrasonic` (`detectors/audio.rs` lines
41-76) over the audio-API and frequency match texts. -/
def detectUltrasonic (loc : String) (audioApiMatches freqMatches : List String) :
    List Finding :=
  if !audioApiMatches.isEmpty && !freqMatches.isEmpty then
    [{ finding_type := "ultrasonic_frequency"
       value := .obj [("audio_apis", .arr (audioApiMatches.map .str)),
                      ("frequencies", .arr (freqMatches.map .str))]
       confidence := q0_8
       location := loc
       severity := .high }]
  else []

/-- Model of `AudioDetector::detect_mic_access` (`detectors/audio.rs` lines
79-116): severity and confidence escalate when network keywords are also
present. -/
def detectMicAccess (loc : String) (micMatches : List String) (hasNetwork : Bool) :
    List Finding :=
  if !micMatches.isEmpty then
    [{ finding_type := "microphone_access"
       value := .obj [("keywords", .arr (micMatches.map .str)),
                      ("has_network", .bool hasNetwork)]
       confidence := if hasNetwork then q0_85 else q0_6
       location := loc
       severity := if hasNetwork then .critical else .medium }]
  else []

/-- Inputs of one audio-detector file analysis. -/
structure AudioInput where
  loc : String
  isWav : Bool
  bytes : Option (List ℕ)
  audioApiMatches : List String
  freqMatches : List String
  micMatches : List String
  hasNetwork : Bool

/-- Raw (pre-filter) findings of `AudioDetector::analyze_file`
(`detectors/audio.rs` lines 175-188). -/
def audioRawFindings (i : AudioInput) : List Finding :=
  detectAudioManipulation i.loc i.isWav i.bytes
    ++ detectUltrasonic i.loc i.audioApiMatches i.freqMatches
    ++ detectMicAccess i.loc i.micMatches i.hasNetwork

/-- Model of `InjectionDetector::detect_keyboard_injection`
(`detectors/injection.rs` lines 49-94). -/
def detectKeyboardInjection (loc : String) (kb : List String) (hasLoop hasDelay : Bool) :
    List Finding :=
  if !kb.isEmpty then
    [{ finding_type := "keyboard_injection"
       value := .obj [("apis", .arr (kb.map .str)), ("has_loop", .bool hasLoop),
                      ("has_delay", .bool hasDelay)]
       confidence := if hasLoop && hasDelay then q0_9 else q0_75
       location := loc
       severity := if hasLoop && hasDelay then .critical
                   else if hasLoop then .high else .medium }]
  else []

/-- Model of `InjectionDetector::detect_clipboard_hijacking`
(`detectors/injection.rs` lines 97-144). -/
def detectClipboardHijacking (loc : String) (cb : List String) (hasInterval hasCrypto : Bool) :
    List Finding :=
  if !cb.isEmpty then
    [{ finding_type := "clipboard_access"
       value := .obj [("apis", .arr (cb.map .str)), ("has_monitoring", .bool hasInterval),
                      ("has_crypto_keywords", .bool hasCrypto)]
       confidence := if hasCrypto then q0_95 else if hasInterval then q0_8 else q0_65
       location := loc
       severity := if hasCrypto then .critical else if hasInterval then .high else .medium }]
  else []

/-- Model of `InjectionDetector::detect_hid_attacks`
(`detectors/injection.rs` lines 147-184). -/
def detectHidAttacks (loc : String) (hid : List String) (hasKeyboard hasVendorId : Bool) :
    List Finding :=
  if !hid.isEmpty then
    [{ finding_type := "hid_device_access"
       value := .obj [("apis", .arr (hid.map .str)),
                      ("has_keyboard_emulation", .bool hasKeyboard),
                      ("has_vendor_id", .bool hasVendorId)]
       confidence := if hasKeyboard then q0_85 else q0_7
       location := loc
       severity := if hasKeyboard then .critical else .high }]
  else []

/-- Model of `InjectionDetector::detect_automation`
(`detectors/injection.rs` lines 187-212). -/
def detectAutomation (loc : String) (autos : List String) : List Finding :=
  if !autos.isEmpty then
    [{ finding_type := "automation_framework"
       value := .obj [("frameworks", .arr (autos.map .str))]
       confidence := q0_7
       location := loc
       severity := .medium }]
  else []

/-- Inputs of one injection-detector file analysis. -/
structure InjectionInput where
  loc : String
  keyboardMatches : List String
  hasLoop : Bool
  hasDelay : Bool
  clipboardMatches : List String
  hasInterval : Bool
  hasCrypto : Bool
  hidMatches : List String
  hidHasKeyboard : Bool
  hasVendorId : Bool
  automationMatches : List String

/-- Raw (pre-filter) findings of `InjectionDetector::analyze_file`
(`detectors/injection.rs` lines 215-226). -/
def injectionRawFindings (i : InjectionInput) : List Finding :=
  detectKeyboardInjection i.loc i.keyboardMatches i.hasLoop i.hasDelay
    ++ detectClipboardHijacking i.loc i.clipboardMatches i.hasInterval i.hasCrypto
    ++ detectHidAttacks i.loc i.hidMatches i.hidHasKeyboard i.hasVendorId
    ++ detectAutomation i.loc i.automationMatches

/-- Model of `ObfuscationDetector::detect_encrypted_strings`
(`detectors/obfuscation.rs` lines 56-100).  The base64 entries carry the
Shannon entropy of the match as a rational input (the source computes it in
`f64` from transcendental logarithms; only its comparison with 5.5 reaches
the finding). -/
def detectEncryptedStrings (loc : String) (hexMatches : List String)
    (base64Entries : List (String × ℚ)) : List Finding :=
  (hexMatches.map fun m =>
    { finding_type := "hex_encoded_string"
      value := .obj [("length", .num (m.data.length : ℚ)),
                     ("preview", .str (String.mk (m.data.take 50)))]
      confidence := q0_85
      location := loc
      severity := .medium })
  ++ (base64Entries.filterMap fun e =>
    if q5_5 < e.2 then
      some { finding_type := "base64_encoded_string"
             value := .obj [("length", .num (e.1.data.length : ℚ)),
                            ("entropy", .num e.2),
                            ("preview", .str (String.mk (e.1.data.take 50)))]
             confidence := q0_8
             location := loc
             severity := .medium }
    else none)

/-- Model of `ObfuscationDetector::detect_control_flow_flattening`
(`detectors/obfuscation.rs` lines 103-130). -/
def detectControlFlowFlattening (loc : String) (switchCount caseCount : ℕ) : List Finding :=
  if decide (20 < caseCount)
      && decide ((10 : ℚ) < (caseCount : ℚ) / ((max switchCount 1 : ℕ) : ℚ)) then
    [{ finding_type := "control_flow_flattening"
       value := .obj [("switch_count", .num (switchCount : ℚ)),
                      ("case_count", .num (caseCount : ℚ)),
                      ("ratio", .num ((caseCount : ℚ) / ((max switchCount 1 : ℕ) : ℚ)))]
       confidence := q0_75
       location := loc
       severity := .high }]
  else []

/-- Model of `ObfuscationDetector::detect_opaque_predicates`
(`detectors/obfuscation.rs` lines 133-170) over the per-pattern match counts. -/
def detectOpaquePredicates (loc : String) (opaqueCounts : List (String × String × ℕ)) :
    List Finding :=
  opaqueCounts.filterMap fun e =>
    if 3 < e.2.2 then
      some { finding_type := "opaque_predicate"
             value := .obj [("pattern", .str e.1), ("count", .num (e.2.2 : ℚ)),
                            ("type", .str e.2.1)]
             confidence := q0_7
             location := loc
             severity := .medium }
    else none

/-- Inputs of one obfuscation-detector file analysis. -/
structure ObfuscationInput where
  loc : String
  hexMatches : List String
  base64Entries : List (String × ℚ)
  switchCount : ℕ
  caseCount : ℕ
  opaqueCounts : List (String × String × ℕ)

/-- Raw (pre-filter) findings of `ObfuscationDetector::analyze_file`
(`detectors/obfuscation.rs` lines 173-183). -/
def obfuscationRawFindings (i : ObfuscationInput) : List Finding :=
  detectEncryptedStrings i.loc i.hexMatches i.base64Entries
    ++ detectControlFlowFlattening i.loc i.switchCount i.caseCount
    ++ detectOpaquePredicates i.loc i.opaqueCounts

end Firewall

namespace Firewall

/-- The sensitive-target test of the symlink-escape branch
(`detectors/filesystem.rs` lines 139-144). -/
def isSensitiveTarget (t : String) : Bool :=
  "/etc".data.isPrefixOf t.data || "/root".data.isPrefixOf t.data
    || "/home".data.isPrefixOf t.data || containsSub "/.ssh".data t.data
    || containsSub "/.aws".data t.data

/-- Model of `FilesystemDetector::detect_symlink_attacks`
(`detectors/filesystem.rs` lines 70-191) over the walk events, which depend
on host filesystem state: the entries that passed each branch's
filesystem-level guard are taken as inputs; the sensitivity test of the
escape branch, a pure string test, is embedded. -/
def detectSymlinkAttacks (_loc : String) (selfRefs circulars : List (String × String))
    (escapeCandidates : List (String × String)) (brokens : List String) : List Finding :=
  (selfRefs.map fun e =>
    { finding_type := "symlink_self_reference"
      value := .obj [("path", .str e.1), ("target", .str e.2)]
      confidence := q0_99
      location := e.1
      severity := .high })
  ++ (circulars.map fun e =>
    { finding_type := "symlink_circular"
      value := .obj [("path", .str e.1), ("target", .str e.2), ("resolves_to", .str e.2)]
      confidence := q0_95
      location := e.1
      severity := .high })
  ++ (escapeCandidates.filterMap fun e =>
    if isSensitiveTarget e.2 then
      some { finding_type := "symlink_escape"
             value := .obj [("path", .str e.1), ("target", .str e.2)]
             confidence := q0_9
             location := e.1
             severity := .critical }
    else none)
  ++ (brokens.map fun p =>
    { finding_type := "symlink_broken"
      value := .obj [("path", .str p)]
      confidence := q0_7
      location := p
      severity := .low })

/-- The suspicious-name test of `detect_hidden_root`
(`detectors/filesystem.rs` lines 205-215). -/
def suspiciousHiddenName (n : String) : Bool :=
  n == ".bashrc" || n == ".profile" || n == ".bash_profile" || n == ".zshrc"
    || n == ".vimrc" || containsSub "rc".data n.data || containsSub "history".data n.data
    || containsSub "secret".data n.data || containsSub "credential".data n.data
    || containsSub "token".data n.data || containsSub "key".data n.data

/-- Model of `FilesystemDetector::detect_hidden_root` (lines 194-238) over
the top-level directory listing (name, full path). -/
def detectHiddenRoot (_loc : String) (topLevel : List (String × String)) : List Finding :=
  topLevel.filterMap fun e =>
    if (".".data).isPrefixOf e.1.data && e.1 ≠ "." && e.1 ≠ ".." && suspiciousHiddenName e.1 then
      some { finding_type := "hidden_sensitive_file"
             value := .obj [("name", .str e.1), ("path", .str e.2)]
             confidence := q0_8
             location := e.2
             severity := .medium }
    else none

/-- Model of `FilesystemDetector::detect_git_exposure` (lines 241-293) over
the discovered `.git` directories: (path, names of the existing sensitive
entries, `config` content when readable).  The credential test on the config
content is embedded. -/
def detectGitExposure (_loc : String) (gitDirs : List (String × List String × Option String)) :
    List Finding :=
  gitDirs.map fun g =>
    let hasCreds := match g.2.2 with
      | some c => containsSub "password".data c.data || containsSub "token".data c.data
          || containsSub "credential".data c.data
      | none => false
    { finding_type := "git_directory_exposed"
      value := .obj [("path", .str g.1), ("exposed_files", .arr (g.2.1.map .str)),
                     ("has_credentials", .bool hasCreds)]
      confidence := q0_95
      location := g.1
      severity := if hasCreds then .critical else .high }

/-- The suspicious-directory table of `detect_screenshot_collection`
(line 323). -/
def suspiciousDirs : List String := ["temp", "tmp", ".cache", "hidden", "data", "uploads"]

/-- Model of `FilesystemDetector::detect_screenshot_collection` (lines
296-354) over the collected screenshot paths and their total size. -/
def detectScreenshotCollection (loc : String) (screenshots : List String)
    (totalSize : ℕ) : List Finding :=
  if 5 ≤ screenshots.length then
    let inSuspicious := screenshots.any fun s =>
      suspiciousDirs.any fun d => containsSub d.data (toLowerAscii s.data)
    [{ finding_type := "screenshot_collection"
       value := .obj [("count", .num (screenshots.length : ℚ)),
                      ("total_size_mb", .num ((totalSize : ℚ) / 1000000)),
                      ("samples", .arr ((screenshots.take 5).map .str))]
       confidence := if inSuspicious then q0_9 else q0_75
       location := loc
       severity := if 20 < screenshots.length || inSuspicious then .critical else .high }]
  else []

/-- The `sensitive_files` table of `FilesystemDetector::new` (lines 38-55). -/
def sensitiveFilesList : List String :=
  [".env", ".env.local", ".env.production", "credentials.json", "secrets.yaml",
   "secrets.yml", ".aws/credentials", ".ssh/id_rsa", ".ssh/id_ed25519", ".npmrc",
   ".pypirc", "wp-config.php", "config.php", ".htpasswd", "shadow", "passwd"]

/-- Model of `FilesystemDetector::detect_sensitive_files` (lines 357-394)
over the walk entries (name, full path); the `break` of the source makes the
first matching table entry the reported one. -/
def detectSensitiveFiles (walkEntries : List (String × String)) : List Finding :=
  walkEntries.filterMap fun e =>
    match sensitiveFilesList.find? (fun s => e.1 == s || s.data.isSuffixOf e.2.data) with
    | some s =>
        some { finding_type := "sensitive_file_exposed"
               value := .obj [("file", .str s), ("path", .str e.2)]
               confidence := q0_95
               location := e.2
               severity := .critical }
    | none => none

/-- Model of `FilesystemDetector::detect_path_traversal` (lines 397-431)
over the walk entries (name, full path). -/
def detectPathTraversal (walkEntries : List (String × String)) : List Finding :=
  walkEntries.filterMap fun e =>
    if containsSub "..".data e.1.data || containsSub "./".data e.1.data
        || containsSub "/.".data e.1.data then
      some { finding_type := "path_traversal_filename"
             value := .obj [("name", .str e.1), ("path", .str e.2)]
             confidence := q0_9
             location := e.2
             severity := .high }
    else none

/-- Inputs of one filesystem-detector analysis: the walk and symlink events,
which depend on host filesystem state, taken as inputs. -/
structure FilesystemInput where
  loc : String
  symSelfRefs : List (String × String)
  symCirculars : List (String × String)
  symEscapeCandidates : List (String × String)
  symBrokens : List String
  topLevel : List (String × String)
  gitDirs : List (String × List String × Option String)
  screenshots : List String
  screenshotTotalSize : ℕ
  walkEntries : List (String × String)

/-- Raw (pre-filter) findings of `FilesystemDetector::analyze`
(`detectors/filesystem.rs` lines 433-445). -/
def filesystemRawFindings (i : FilesystemInput) : List Finding :=
  detectSymlinkAttacks i.loc i.symSelfRefs i.symCirculars i.symEscapeCandidates i.symBrokens
    ++ detectHiddenRoot i.loc i.topLevel
    ++ detectGitExposure i.loc i.gitDirs
    ++ detectScreenshotCollection i.loc i.screenshots i.screenshotTotalSize
    ++ detectSensitiveFiles i.walkEntries
    ++ detectPathTraversal i.walkEntries

/-- One per-skill analysis input of the default registry: the nine built-in
detectors with their respective file-analysis inputs. -/
inductive SkillInput where
  | cipher (i : CipherInput) : SkillInput
  | stego (i : StegoInput) : SkillInput
  | obfuscation (i : ObfuscationInput) : SkillInput
  | network (i : NetworkInput) : SkillInput
  | temporal (i : TemporalInput) : SkillInput
  | audio (i : AudioInput) : SkillInput
  | injection (i : InjectionInput) : SkillInput
  | svg (i : SvgInput) : SkillInput
  | filesystem (i : FilesystemInput) : SkillInput

/-- Raw (pre-filter) findings of the selected skill on the given input. -/
def rawFindings : SkillInput → List Finding
  | .cipher i => cipherRawFindings i
  | .stego i => stegoRawFindings i
  | .obfuscation i => obfuscationRawFindings i
  | .network i => networkRawFindings i
  | .temporal i => temporalRawFindings i
  | .audio i => audioRawFindings i
  | .injection i => injectionRawFindings i
  | .svg i => svgRawFindings i
  | .filesystem i => filesystemRawFindings i

/-- Confidence threshold of the selected skill; every built-in skill uses
0.70 (the default of the `Skill` trait, restated by the SVG detector). -/
def skillThreshold : SkillInput → ℚ
  | .svg _ => svgConfidenceThreshold
  | _ => defaultConfidenceThreshold

/-- Findings surfaced by a successful `execute` of the selected skill: the
raw findings filtered by the confidence threshold (every detector's
`execute` applies exactly this filter before `SkillOutput::with_findings`). -/
def executeFindings (i : SkillInput) : List Finding :=
  filterByThreshold (skillThreshold i) (rawFindings i)

end Firewall

namespace Firewall

/-- Registry of skills, modelling `SkillRegistry` of `skills/registry.rs`:
a map from skill name to the skill's `execute` behaviour (an arbitrary
function, as `dyn Skill` is).  The `HashMap` of the source has unique keys;
the model is an association list looked up by first match. -/
def Registry : Type :=
  List (String × (Val → Except SkillError SkillOutput))

/-- Lookup of `self.skills.get(name)`. -/
def lookupSkill (r : Registry) (n : String) :
    Option (Val → Except SkillError SkillOutput) :=
  (r.find? (fun e => e.1 = n)).map (·.2)

/-- Model of `SkillRegistry::invoke` (`skills/registry.rs` lines 42-50):
dispatch to the registered skill, or an `InvalidParams` error naming the
unknown skill. -/
def invoke (r : Registry) (n : String) (p : Val) : Except SkillError SkillOutput :=
  match lookupSkill r n with
  | some s => s p
  | none => .error (.invalidParams ("Unknown skill: " ++ n))

/-- Three-way comparison on naturals (`Ord::cmp`). -/
def cmpNat (a b : ℕ) : Ordering :=
  if a < b then .lt else if b < a then .gt else .eq

/-- Three-way comparison on rationals (`partial_cmp(..).unwrap()` of the
source; the confidences are never NaN, so the unwrap never panics and the
comparison is the total order of the reals). -/
def cmpQ (a b : ℚ) : Ordering :=
  if a < b then .lt else if b < a then .gt else .eq

/-- The comparator of `scan_path` (`lib.rs` lines 67-71):
`b.severity.cmp(&a.severity).then(b.confidence.partial_cmp(&a.confidence).unwrap())`. -/
def cmpFinding (a b : Finding) : Ordering :=
  (cmpNat (sevRank b.severity) (sevRank a.severity)).then (cmpQ b.confidence a.confidence)

/-- The `≤`-shape of the `scan_path` comparator: `a` may precede `b`. -/
def findingLE (a b : Finding) : Prop := cmpFinding a b ≠ .gt

instance : DecidableRel findingLE := fun a b =>
  inferInstanceAs (Decidable (cmpFinding a b ≠ .gt))

/-- The comparator order is the lexicographic order: severity strictly
descending, then confidence descending. -/
theorem findingLE_iff (a b : Finding) :
    findingLE a b ↔
      sevRank b.severity < sevRank a.severity
        ∨ (sevRank b.severity = sevRank a.severity ∧ b.confidence ≤ a.confidence) := by
  unfold findingLE cmpFinding cmpNat cmpQ
  rcases lt_trichotomy (sevRank b.severity) (sevRank a.severity) with h | h | h
  · simp [h, Nat.not_lt.mpr (le_of_lt h), Ordering.then]
    try omega
  · rcases lt_trichotomy b.confidence a.confidence with hc | hc | hc
    · simp [h, lt_irrefl, Ordering.then, hc, le_of_lt hc]
    · simp [h, lt_irrefl, Ordering.then, hc, le_of_eq hc]
    · simp [h, lt_irrefl, Ordering.then, not_lt.mpr (le_of_lt hc), hc, not_le.mpr hc]
  · simp [Nat.not_lt.mpr (le_of_lt h), h, Ordering.then]
    try omega

instance : IsTotal Finding findingLE :=
  ⟨fun a b => by
    rw [findingLE_iff, findingLE_iff]
    rcases lt_trichotomy (sevRank b.severity) (sevRank a.severity) with h | h | h
    · exact Or.inl (Or.inl h)
    · rcases le_total b.confidence a.confidence with hc | hc
      · exact Or.inl (Or.inr ⟨h, hc⟩)
      · exact Or.inr (Or.inr ⟨h.symm, hc⟩)
    · exact Or.inr (Or.inl h)⟩

instance : IsTrans Finding findingLE :=
  ⟨fun a b c hab hbc => by
    rw [findingLE_iff] at hab hbc ⊢
    rcases hab with h1 | ⟨h1, h1c⟩ <;> rcases hbc with h2 | ⟨h2, h2c⟩
    · exact Or.inl (lt_trans h2 h1)
    · exact Or.inl (by rw [h2]; exact h1)
    · exact Or.inl (by rw [← h1]; exact h2)
    · exact Or.inr ⟨h2.trans h1, h2c.trans h1c⟩⟩

/-- Severity ranks are distinct. -/
theorem sevRank_inj : ∀ a b : Severity, sevRank a = sevRank b → a = b := by
  intro a b h
  cases a <;> cases b <;> first | rfl | simp [sevRank] at h

/-- Concatenation of the findings of the successful per-skill results, the
loop of `scan_path` (`lib.rs` lines 58-64): errors are ignored. -/
def okFindings (results : List (Except SkillError SkillOutput)) : List Finding :=
  results.foldl
    (fun acc r =>
      match r with
      | .ok o => acc ++ o.findings
      | .error _ => acc)
    []

/-- Model of `scan_path` (`lib.rs` lines 54-74) over the per-skill
invocation results (the registry loop and the host filesystem behind each
`invoke` are abstracted into the result list): concatenate the findings of
the successful skills, sort by the comparator (the source's stable
`sort_by` is modelled by insertion sort, also stable), and return `Ok`. -/
def scanPath (results : List (Except SkillError SkillOutput)) :
    Except SkillError (List Finding) :=
  .ok (List.insertionSort findingLE (okFindings results))

/-- Modelled from the claim's words: consecutive findings are ordered by
strictly greater severity, or equal severity and non-increasing confidence. -/
def nonIncreasing (a b : Finding) : Prop :=
  sevRank b.severity < sevRank a.severity
    ∨ (b.severity = a.severity ∧ b.confidence ≤ a.confidence)

end Firewall

namespace Firewall

/-- A concrete finding used to instantiate witnesses. -/
def demoFinding : Finding :=
  { finding_type := "demo"
    value := .null
    confidence := q0_8
    location := "demo"
    severity := .high }

/-- C3: for every list of findings, `SkillOutput::with_findings` keeps the
findings and sets the aggregate confidence to 1.0 on the empty list and to
the arithmetic mean of the finding confidences otherwise (exactly, hence
within the claimed 1e-6 tolerance); and every successful skill `execute`
returns its filtered findings through `with_findings`, so every returned
output satisfies this equation. -/
theorem withFindings_confidence_mean :
    (∀ fs : List Finding,
      (SkillOutput.withFindings fs).findings = fs
        ∧ (fs = [] → (SkillOutput.withFindings fs).confidence = 1)
        ∧ (fs ≠ [] →
            |(SkillOutput.withFindings fs).confidence - confSum fs / (fs.length : ℚ)|
              ≤ 1 / 1000000))
      ∧ (∀ (t : ℚ) (raw : List Finding),
          executeFiltered t raw = SkillOutput.withFindings (filterByThreshold t raw)
            ∧ (executeFiltered t raw).findings = filterByThreshold t raw) := by
  constructor
  · intro fs
    refine ⟨rfl, ?_, ?_⟩
    · intro h
      simp [SkillOutput.withFindings, h]
    · intro h
      have he : ¬fs.isEmpty := by simpa [List.isEmpty_iff] using h
      simp only [SkillOutput.withFindings, he, if_false]
      norm_num
  · intro t raw
    exact ⟨rfl, rfl⟩

/-- Witness for C3 at a concrete one-element list of findings. -/
theorem withFindings_confidence_mean_witness :
    ([demoFinding] ≠ ([] : List Finding))
      ∧ |(SkillOutput.withFindings [demoFinding]).confidence
            - confSum [demoFinding] / (([demoFinding] : List Finding).length : ℚ)|
          ≤ 1 / 1000000 :=
  ⟨List.cons_ne_nil _ _,
   (withFindings_confidence_mean.1 [demoFinding]).2.2 (List.cons_ne_nil _ _)⟩

/-- C2: `scan_path` concatenates the findings of the successful skills,
ignoring per-skill errors, and returns `Ok` of a permutation of them that is
sorted non-increasingly by (severity, confidence): every consecutive pair is
ordered by strictly greater severity or by equal severity and non-increasing
confidence. -/
theorem scanPath_sorted_nonincreasing :
    ∀ results : List (Except SkillError SkillOutput),
      ∃ l, scanPath results = .ok l ∧ l.Perm (okFindings results)
        ∧ List.Chain' nonIncreasing l := by
  intro results
  refine ⟨_, rfl, List.perm_insertionSort _ _, ?_⟩
  have hs : List.Sorted findingLE (List.insertionSort findingLE (okFindings results)) :=
    List.sorted_insertionSort _ _
  have hc : List.Chain' findingLE (List.insertionSort findingLE (okFindings results)) :=
    List.Pairwise.chain' hs
  refine hc.imp ?_
  intro a b h
  rcases (findingLE_iff a b).mp h with h1 | ⟨h1, h2⟩
  · exact Or.inl h1
  · exact Or.inr ⟨sevRank_inj _ _ h1, h2⟩

/-- A registered skill that itself answers with the unknown-skill error
text, the behaviour the `Skill` trait permits. -/
def badSkillRegistry : Registry :=
  [("x", fun _ => .error (.invalidParams "Unknown skill: x"))]

/-- C9 counterexample: the claim's "iff" fails on a registry whose
registered skill `x` returns `InvalidParams("Unknown skill: x")` from its
own `execute`: `invoke` returns exactly that error although `x` is
registered. -/
theorem invoke_unknown_message_counterexample :
    invoke badSkillRegistry "x" .null
        = .error (.invalidParams ("Unknown skill: " ++ "x"))
      ∧ (lookupSkill badSkillRegistry "x").isSome = true := by
  constructor
  · rfl
  · rfl

/-- C9 as amended: `invoke` answers the unknown-skill `InvalidParams` error
when the name is not registered, answers exactly the registered skill's
`execute(p)` otherwise, and its result depends only on the looked-up entry,
so no invocation affects another skill's result. -/
theorem invoke_dispatch :
    ∀ (r : Registry) (n : String) (p : Val),
      (lookupSkill r n = none →
          invoke r n p = .error (.invalidParams ("Unknown skill: " ++ n)))
        ∧ (∀ s, lookupSkill r n = some s → invoke r n p = s p)
        ∧ (∀ r2 : Registry, lookupSkill r n = lookupSkill r2 n →
            invoke r n p = invoke r2 n p) := by
  intro r n p
  refine ⟨?_, ?_, ?_⟩
  · intro h
    unfold invoke
    rw [h]
  · intro s h
    unfold invoke
    rw [h]
  · intro r2 h
    unfold invoke
    rw [h]

/-- A registry with one well-behaved skill, used by the C9 witness. -/
def demoRegistry : Registry :=
  [("a", fun _ => .ok (SkillOutput.withFindings []))]

/-- Witness for C9 at a concrete registry: dispatch to a missing name and to
a registered name. -/
theorem invoke_dispatch_witness :
    invoke demoRegistry "b" .null = .error (.invalidParams ("Unknown skill: " ++ "b"))
      ∧ invoke demoRegistry "a" .null = .ok (SkillOutput.withFindings []) :=
  ⟨(invoke_dispatch demoRegistry "b" .null).1 rfl,
   (invoke_dispatch demoRegistry "a" .null).2.1 _ rfl⟩

end Firewall

namespace Firewall

/-- A PNG whose IEND chunk (signature at position 4) and 4-byte CRC are
followed by 128 additional bytes. -/
def pngDemo : List ℕ := pngMagic ++ iendSig ++ [1, 2, 3, 4] ++ List.replicate 128 0

/-- C6: for every file starting with the PNG magic whose first IEND
signature sits at position `pos`, the stego detector emits an
`eof_hidden_data` finding with file type PNG, `extra_bytes = len − (pos+12)`,
confidence 0.9 and severity High exactly when `pos + 12 < len`; a PNG whose
IEND chunk and CRC are followed by 128 bytes yields `extra_bytes = 128`. -/
theorem detectEofPng_characterization :
    (∀ (loc : String) (data : List ℕ) (pos : ℕ),
        pngMagic.isPrefixOf data = true →
        firstMatchPos iendSig data = some pos →
          (pos + 12 < data.length →
              detectEofPng loc data
                = [{ finding_type := "eof_hidden_data"
                     value := .obj [("file_type", .str "PNG"),
                                    ("extra_bytes", .num ((data.length - (pos + 12) : ℕ) : ℚ)),
                                    ("offset", .num ((pos + 12 : ℕ) : ℚ))]
                     confidence := q0_9
                     location := loc
                     severity := .high }])
            ∧ (¬pos + 12 < data.length → detectEofPng loc data = []))
      ∧ detectEofPng "img.png" pngDemo
          = [{ finding_type := "eof_hidden_data"
               value := .obj [("file_type", .str "PNG"), ("extra_bytes", .num 128),
                              ("offset", .num 16)]
               confidence := q0_9
               location := "img.png"
               severity := .high }] := by
  constructor
  · intro loc data pos hm hp
    constructor
    · intro hlt
      simp [detectEofPng, hm, hp, hlt]
    · intro hlt
      simp [detectEofPng, hm, hp, hlt]
  · decide

/-- Witness for C6: the universally quantified part instantiated at the
concrete 144-byte PNG, position 4. -/
theorem detectEofPng_characterization_witness :
    detectEofPng "w.png" pngDemo
      = [{ finding_type := "eof_hidden_data"
           value := .obj [("file_type", .str "PNG"),
                          ("extra_bytes", .num ((pngDemo.length - (4 + 12) : ℕ) : ℚ)),
                          ("offset", .num ((4 + 12 : ℕ) : ℚ))]
           confidence := q0_9
           location := "w.png"
           severity := .high }] :=
  (detectEofPng_characterization.1 "w.png" pngDemo 4 (by decide) (by decide)).1 (by decide)

/-- Auxiliary: `findSome?` succeeds exactly when some element succeeds. -/
theorem findSome?_isSome_eq_any {α β : Type} (f : α → Option β) :
    ∀ l : List α, (List.findSome? f l).isSome = l.any fun a => (f a).isSome := by
  intro l
  induction l with
  | nil => rfl
  | cons a l ih =>
      rw [List.findSome?_cons, List.any_cons]
      cases h : f a <;> simp [h, ih]

/-- Auxiliary: a guarded `some` is defined exactly when the guard holds. -/
theorem isSome_ite {p : Prop} [Decidable p] {β : Type} (x : β) :
    (if p then some x else none).isSome = decide p := by
  split <;> simp_all

/-- C4 (amended: the match center is the truncation `⌊c·s⌋` that
`(*const_val * scale) as u64` computes, not the nearest integer): for every
6-to-12-digit token of value `v`, `check_constant` accepts `v` exactly when
some constant and scale of the tables satisfy
`|v − ⌊c·s⌋| ≤ ⌊s/1000⌋`; each accepted token yields one
`math_constant_seed` finding of severity High with confidence
`1 − diff/(tolerance+1)`; and `seed = 1618033988` yields exactly one such
finding, for constant phi at scale 1e9. -/
theorem detectMathConstants_characterization :
    (∀ v : ℕ, (checkConstant v).isSome = codeMathMatches v)
      ∧ (∀ (loc : String) (content : List Char),
          detectMathConstants loc content
            = (numberTokens content).filterMap fun ds =>
                (checkConstant (natOfDigits ds)).map (mkMathConstantFinding loc (natOfDigits ds)))
      ∧ (∀ (loc : String) (v : ℕ) (r : String × ℕ × ℕ × ℕ),
          (mkMathConstantFinding loc v r).finding_type = "math_constant_seed"
            ∧ (mkMathConstantFinding loc v r).severity = .high
            ∧ (mkMathConstantFinding loc v r).confidence
                = 1 - (r.2.2.1 : ℚ) / ((r.2.2.2 : ℚ) + 1))
      ∧ checkConstant 1618033988 = some ("phi", 1000000000, 0, 1000000)
      ∧ detectMathConstants "seed.txt" "seed = 1618033988".data
          = [mkMathConstantFinding "seed.txt" 1618033988 ("phi", 1000000000, 0, 1000000)] := by
  refine ⟨?_, ?_, ?_, by decide, ?_⟩
  · intro v
    unfold checkConstant codeMathMatches
    rw [findSome?_isSome_eq_any]
    congr 1
    funext c
    rw [findSome?_isSome_eq_any]
    congr 1
    funext s
    rw [isSome_ite]
  · intro loc content
    rfl
  · intro loc v r
    exact ⟨rfl, rfl, rfl⟩
  · have h1 : numberTokens "seed = 1618033988".data
        = [['1', '6', '1', '8', '0', '3', '3', '9', '8', '8']] := by decide
    have h2 : natOfDigits ['1', '6', '1', '8', '0', '3', '3', '9', '8', '8'] = 1618033988 := by
      decide
    have h3 : checkConstant 1618033988 = some ("phi", 1000000000, 0, 1000000) := by decide
    simp [detectMathConstants, h1, h2, h3]

/-- C4 counterexample to the claim as stated (nearest-integer rounding):
the 10-digit token 1617033988 satisfies no pair under rounding —
`round(φ·10⁹) = 1618033989` and `|1617033988 − 1618033989| = 1000001 > 10⁶`,
and every other pair is farther — yet the code accepts it against the
truncated center `⌊φ·10⁹⌋ = 1618033988` with `diff = tolerance = 10⁶`,
so the detector emits a `math_constant_seed` finding for it. -/
theorem mathConstants_round_counterexample :
    specMathMatchesRound 1617033988 = false
      ∧ (checkConstant 1617033988).isSome = true
      ∧ (detectMathConstants "f" "x = 1617033988".data).length = 1 :=
  ⟨by decide, by decide, by decide⟩

end Firewall

namespace Firewall

/-- The self-reference finding constructor is injective in algorithm and
token. -/
theorem mkSelfRefFinding_inj {a a' loc loc' : String} {t t' : List Char}
    (h : mkSelfRefFinding a loc t = mkSelfRefFinding a' loc' t') : a = a' ∧ t = t' := by
  simp only [mkSelfRefFinding, Finding.mk.injEq, Val.obj.injEq, List.cons.injEq,
    Prod.mk.injEq, Val.str.injEq, true_and, and_true] at h
  exact ⟨h.1.2, congrArg String.data h.1.1⟩

/-- Decomposition of membership in one self-reference arm. -/
theorem mem_selfRefArm {alg : String} {dig : List Char → List Char} {loc : String}
    {content : List Char} {tokens : List (List Char)} {f : Finding}
    (h : f ∈ selfRefArm alg dig loc content tokens) :
    ∃ t ∈ tokens, eqIgnoreAsciiCase (dig (removeAllOcc t content)) t = true
      ∧ f = mkSelfRefFinding alg loc t := by
  rcases List.mem_filterMap.mp h with ⟨t, ht, he⟩
  by_cases hc : eqIgnoreAsciiCase (dig (removeAllOcc t content)) t = true
  · simp only [hc, if_true] at he
    exact ⟨t, ht, hc, (Option.some.injEq _ _).mp he |>.symm⟩
  · simp [hc] at he

/-- Construction of membership in one self-reference arm. -/
theorem selfRefArm_mem_of {alg : String} {dig : List Char → List Char} {loc : String}
    {content : List Char} {tokens : List (List Char)} {t : List Char}
    (ht : t ∈ tokens) (hc : eqIgnoreAsciiCase (dig (removeAllOcc t content)) t = true) :
    mkSelfRefFinding alg loc t ∈ selfRefArm alg dig loc content tokens :=
  List.mem_filterMap.mpr ⟨t, ht, by simp [hc]⟩

/-- C5: for every MD5 (32 hex) or SHA-256 (64 hex) token `t` of the content,
the cipher detector emits a `self_referencing_hash` finding for `t` exactly
when the matching digest, recomputed over the content with every textual
occurrence of `t` removed, equals `t` case-insensitively; every such finding
has confidence 0.99 and severity Critical.  The digest functions are the
external `md5`/`sha2` crates, abstracted as arbitrary functions. -/
theorem detectSelfReference_characterization :
    ∀ (md5Hex sha256Hex : List Char → List Char) (loc : String) (content : List Char)
      (t : List Char),
      (t ∈ md5Tokens content →
        (mkSelfRefFinding "md5" loc t ∈ detectSelfReference md5Hex sha256Hex loc content
          ↔ eqIgnoreAsciiCase (md5Hex (removeAllOcc t content)) t = true))
        ∧ (t ∈ sha256Tokens content →
          (mkSelfRefFinding "sha256" loc t ∈ detectSelfReference md5Hex sha256Hex loc content
            ↔ eqIgnoreAsciiCase (sha256Hex (removeAllOcc t content)) t = true))
        ∧ (∀ f ∈ detectSelfReference md5Hex sha256Hex loc content,
            f.finding_type = "self_referencing_hash" ∧ f.confidence = q0_99
              ∧ f.severity = .critical) := by
  intro m5 s2 loc content t
  refine ⟨?_, ?_, ?_⟩
  · intro ht
    constructor
    · intro hmem
      rcases List.mem_append.mp hmem with hA | hB
      · rcases mem_selfRefArm hA with ⟨t', ht', hc', he⟩
        obtain ⟨-, htt⟩ := mkSelfRefFinding_inj he
        rw [htt]
        exact hc'
      · rcases mem_selfRefArm hB with ⟨t', ht', hc', he⟩
        obtain ⟨halg, -⟩ := mkSelfRefFinding_inj he
        exact absurd halg (by decide)
    · intro hc
      exact List.mem_append.mpr (Or.inl (selfRefArm_mem_of ht hc))
  · intro ht
    constructor
    · intro hmem
      rcases List.mem_append.mp hmem with hA | hB
      · rcases mem_selfRefArm hA with ⟨t', ht', hc', he⟩
        obtain ⟨halg, -⟩ := mkSelfRefFinding_inj he
        exact absurd halg (by decide)
      · rcases mem_selfRefArm hB with ⟨t', ht', hc', he⟩
        obtain ⟨-, htt⟩ := mkSelfRefFinding_inj he
        rw [htt]
        exact hc'
    · intro hc
      exact List.mem_append.mpr (Or.inr (selfRefArm_mem_of ht hc))
  · intro f hf
    rcases List.mem_append.mp hf with h | h <;>
      · rcases mem_selfRefArm h with ⟨t', -, -, he⟩
        rw [he]
        exact ⟨rfl, rfl, rfl⟩

/-- A stand-in digest function used by the C5 witness: it answers the fixed
32-character token. -/
def demoDigest : List Char → List Char := fun _ => List.replicate 32 'a'

/-- Witness for C5: a 32-hex-character file whose (stand-in) digest of the
emptied content equals the token, so the finding is emitted. -/
theorem detectSelfReference_characterization_witness :
    List.replicate 32 'a' ∈ md5Tokens (List.replicate 32 'a')
      ∧ mkSelfRefFinding "md5" "f" (List.replicate 32 'a')
          ∈ detectSelfReference demoDigest demoDigest "f" (List.replicate 32 'a') :=
  ⟨by decide,
   ((detectSelfReference_characterization demoDigest demoDigest "f"
        (List.replicate 32 'a') (List.replicate 32 'a')).1 (by decide)).mpr (by decide)⟩

/-- The IP-collection loop equals first-occurrence deduplication of the
exclusion-filtered token list. -/
theorem ipCollect_eq_dedupFiltered :
    ∀ (l acc : List String),
      l.foldl ipCollectStep acc
        = (l.filter fun t => !ipExcluded t).foldl dedupStep acc := by
  intro l
  induction l with
  | nil => intro acc; rfl
  | cons x xs ih =>
      intro acc
      by_cases hex : ipExcluded x = true
      · have hstep : ipCollectStep acc x = acc := by
          unfold ipCollectStep
          unfold ipExcluded at hex
          simp only [Bool.or_eq_true, List.elem_iff] at hex
          by_cases hs : x ∈ safeIps
          · simp [List.elem_iff, hs]
          · have hp : isPrivateIp x = true := by tauto
            by_cases hacc : x ∈ acc <;> simp [List.elem_iff, hs, hacc, hp]
        rw [List.foldl_cons, hstep, List.filter_cons]
        simp only [hex, Bool.not_true, if_false]
        exact ih acc
      · have hnx : ipExcluded x = false := Bool.eq_false_iff.mpr hex
        unfold ipExcluded at hnx
        rw [Bool.or_eq_false_iff] at hnx
        have hns : x ∉ safeIps := fun hm => by
          have hq : safeIps.contains x = true := by simp [List.elem_iff, hm]
          rw [hq] at hnx
          exact absurd hnx.1 (by simp)
        have hstep : ipCollectStep acc x = dedupStep acc x := by
          unfold ipCollectStep dedupStep
          by_cases hacc : x ∈ acc <;> simp [List.elem_iff, hns, hnx.2, hacc]
        rw [List.foldl_cons, hstep, List.filter_cons]
        have hnx2 : ipExcluded x = false := by
          unfold ipExcluded
          rw [Bool.or_eq_false_iff]
          exact hnx
        simp only [hnx2, Bool.not_false, if_true, List.foldl_cons]
        exact ih (dedupStep acc x)

/-- C7: the network detector's surviving IP set is exactly the unique IP
tokens outside the six-literal safe list and the RFC1918 ranges; one
`hardcoded_public_ip` finding listing them, with confidence 0.7 and severity
Medium, is emitted exactly when the set is non-empty; a file containing
1.2.3.4 and 127.0.0.1 yields one finding listing 1.2.3.4 and not
127.0.0.1. -/
theorem detectHardcodedIps_characterization :
    (∀ (loc : String) (content : List Char),
        collectPublicIps content = specRemainingIps content
          ∧ (specRemainingIps content ≠ [] →
              detectHardcodedIps loc content
                = [{ finding_type := "hardcoded_public_ip"
                     value := .obj [("ips", .arr ((specRemainingIps content).map .str)),
                                    ("count", .num ((specRemainingIps content).length : ℚ))]
                     confidence := q0_7
                     location := loc
                     severity := .medium }])
          ∧ (specRemainingIps content = [] → detectHardcodedIps loc content = []))
      ∧ specRemainingIps "src 1.2.3.4 dst 127.0.0.1\n".data = ["1.2.3.4"]
      ∧ "1.2.3.4" ∈ specRemainingIps "src 1.2.3.4 dst 127.0.0.1\n".data
      ∧ "127.0.0.1" ∉ specRemainingIps "src 1.2.3.4 dst 127.0.0.1\n".data := by
  refine ⟨?_, by decide, by decide, by decide⟩
  intro loc content
  have hc : collectPublicIps content = specRemainingIps content :=
    ipCollect_eq_dedupFiltered (ipTokens content) []
  refine ⟨hc, ?_, ?_⟩
  · intro hne
    have hne2 : (specRemainingIps content).isEmpty = false := by
      simpa [List.isEmpty_iff] using hne
    simp [detectHardcodedIps, hc, hne2]
  · intro heq
    simp [detectHardcodedIps, hc, heq]

/-- Witness for C7: the conditional part instantiated at the concrete
two-IP file. -/
theorem detectHardcodedIps_characterization_witness :
    detectHardcodedIps "f" "src 1.2.3.4 dst 127.0.0.1\n".data
      = [{ finding_type := "hardcoded_public_ip"
           value := .obj
             [("ips", .arr ((specRemainingIps "src 1.2.3.4 dst 127.0.0.1\n".data).map .str)),
              ("count", .num ((specRemainingIps "src 1.2.3.4 dst 127.0.0.1\n".data).length : ℚ))]
           confidence := q0_7
           location := "f"
           severity := .medium }] :=
  (detectHardcodedIps_characterization.1 "f" "src 1.2.3.4 dst 127.0.0.1\n".data).2.1
    (by decide)

end Firewall

namespace Firewall

/-- The SVG input used to state C8 at the level of `analyze_file`: only the
event-handler scan concerns the claim, so the other scans' match lists are
empty. -/
def svgInputOf (path : String) (content : List Char) : SvgInput :=
  { path := path, content := content, scriptTags := [], xlinks := [], useTags := [],
    dataUris := [], base64Js := [], foreignObjects := [], cssMatches := [],
    entityMatches := [], iframes := [] }

/-- On an SVG file the raw findings of the event-handler-only input are
exactly the event-handler findings. -/
theorem svgRawFindings_eventHandlers {path : String} {content : List Char}
    (hsvg : isSvgFile path content = true) :
    svgRawFindings (svgInputOf path content) = detectEventHandlers path content := by
  simp [svgRawFindings, svgInputOf, hsvg, detectScriptTags, detectXlinkRefs, detectUseTags,
    detectDataUris, detectBase64Js, detectForeignObjects, detectCssInjection, detectXxe,
    detectIframes]

/-- C8: on every file recognized as SVG, every occurrence of an on-prefixed
event-handler attribute of the closed set with a quoted value yields an
`svg_event_handler` finding with that handler, confidence 0.95 and severity
Critical, and the finding survives the 0.70 threshold of `execute`; the file
`<svg onload="x()"></svg>` yields exactly one such finding with handler
`onload`. -/
theorem svg_event_handler_detection :
    (∀ (path : String) (content : List Char) (m : List Char × List Char),
        isSvgFile path content = true →
        m ∈ eventHandlerCaptures content →
          mkEventHandlerFinding path m ∈ executeFindings (.svg (svgInputOf path content))
            ∧ (mkEventHandlerFinding path m).confidence = q0_95
            ∧ (mkEventHandlerFinding path m).severity = .critical
            ∧ (mkEventHandlerFinding path m).value.lookup "handler"
                = some (.str (String.mk m.2)))
      ∧ isSvgFile "img.svg" "<svg onload=\"x()\"></svg>".data = true
      ∧ detectEventHandlers "img.svg" "<svg onload=\"x()\"></svg>".data
          = [mkEventHandlerFinding "img.svg" ("onload=\"x()\"".data, "onload".data)]
      ∧ (mkEventHandlerFinding "img.svg" ("onload=\"x()\"".data, "onload".data)).value.lookup
            "handler" = some (.str "onload") := by
  refine ⟨?_, by decide, by decide, by decide⟩
  intro path content m hsvg hm
  refine ⟨?_, rfl, rfl, rfl⟩
  show mkEventHandlerFinding path m
      ∈ filterByThreshold svgConfidenceThreshold (svgRawFindings (svgInputOf path content))
  rw [svgRawFindings_eventHandlers hsvg]
  unfold filterByThreshold
  apply List.mem_filter.mpr
  exact ⟨List.mem_map.mpr ⟨m, hm, rfl⟩, rfl⟩

/-- Witness for C8 at the concrete one-handler SVG. -/
theorem svg_event_handler_detection_witness :
    mkEventHandlerFinding "img.svg" ("onload=\"x()\"".data, "onload".data)
        ∈ executeFindings
            (.svg (svgInputOf "img.svg" "<svg onload=\"x()\"></svg>".data))
      ∧ (mkEventHandlerFinding "img.svg" ("onload=\"x()\"".data, "onload".data)).confidence
          = q0_95 :=
  ⟨(svg_event_handler_detection.1 "img.svg" "<svg onload=\"x()\"></svg>".data
      ("onload=\"x()\"".data, "onload".data) (by decide) (by decide)).1,
   (svg_event_handler_detection.1 "img.svg" "<svg onload=\"x()\"></svg>".data
      ("onload=\"x()\"".data, "onload".data) (by decide) (by decide)).2.1⟩

end Firewall

namespace Firewall

/-- Confidence bound for findings produced by a `map`. -/
theorem conf_le_one_of_mem_map {α : Type} {g : α → Finding} {l : List α}
    (h : ∀ a, (g a).confidence ≤ 1) : ∀ f ∈ l.map g, f.confidence ≤ 1 := by
  intro f hf
  rcases List.mem_map.mp hf with ⟨a, -, rfl⟩
  exact h a

/-- Confidence bound for findings produced by a `filterMap`. -/
theorem conf_le_one_of_mem_filterMap {α : Type} {g : α → Option Finding} {l : List α}
    (h : ∀ a f, g a = some f → f.confidence ≤ 1) : ∀ f ∈ l.filterMap g, f.confidence ≤ 1 := by
  intro f hf
  rcases List.mem_filterMap.mp hf with ⟨a, -, he⟩
  exact h a f he

/-- Confidence bound for an append of bounded lists. -/
theorem conf_le_one_append {l1 l2 : List Finding}
    (h1 : ∀ f ∈ l1, f.confidence ≤ 1) (h2 : ∀ f ∈ l2, f.confidence ≤ 1) :
    ∀ f ∈ l1 ++ l2, f.confidence ≤ 1 := by
  intro f hf
  rcases List.mem_append.mp hf with h | h
  · exact h1 f h
  · exact h2 f h

/-- The math-constant confidence `1 − diff/(tolerance+1)` never exceeds 1. -/
theorem mkMathConstantFinding_conf_le_one (loc : String) (v : ℕ) (r : String × ℕ × ℕ × ℕ) :
    (mkMathConstantFinding loc v r).confidence ≤ 1 := by
  show 1 - (r.2.2.1 : ℚ) / ((r.2.2.2 : ℚ) + 1) ≤ 1
  have h0 : (0 : ℚ) ≤ (r.2.2.1 : ℚ) / ((r.2.2.2 : ℚ) + 1) := by positivity
  linarith

/-- The most common residue count is at most the number of residues. -/
theorem maxResidueCount_le_length (values : List ℕ) :
    maxResidueCount values ≤ values.length := by
  have hcount : ∀ v : ℕ, values.count v ≤ values.length := fun v =>
    List.count_le_length v values
  suffices h : ∀ (l : List ℕ) (acc : ℕ), acc ≤ values.length →
      List.foldl (fun acc v => max acc (values.count v)) acc l ≤ values.length by
    exact h values 0 (Nat.zero_le _)
  intro l
  induction l with
  | nil => intro acc h; exact h
  | cons a t ih => intro acc h; exact ih _ (max_le h (hcount a))


/-- A guarded `some` that succeeded forces its payload. -/
theorem eq_of_ite_some {p : Prop} [Decidable p] {x f : Finding}
    (he : (if p then some x else none) = some f) : f = x := by
  by_cases h : p
  · rw [if_pos h] at he
    exact ((Option.some.injEq _ _).mp he).symm
  · rw [if_neg h] at he
    exact absurd he (by simp)

/-- Numeric bound used by the per-detector lemmas. -/
theorem q0_6_le_one : q0_6 ≤ 1 := by decide

/-- Numeric bound used by the per-detector lemmas. -/
theorem q0_7_le_one : q0_7 ≤ 1 := by decide

/-- Numeric bound used by the per-detector lemmas. -/
theorem q0_9_le_one : q0_9 ≤ 1 := by decide

/-- Numeric bound used by the per-detector lemmas. -/
theorem q0_99_le_one : q0_99 ≤ 1 := by decide

/-- Every raw cipher finding has confidence at most 1. -/
theorem cipherRawFindings_conf_le_one (i : CipherInput) :
    ∀ f ∈ cipherRawFindings i, f.confidence ≤ 1 := by
  unfold cipherRawFindings
  refine conf_le_one_append (conf_le_one_append (conf_le_one_append (conf_le_one_append
    ?math ?grid) ?selfref) ?guid) ?seq
  case math =>
    unfold detectMathConstants
    refine conf_le_one_of_mem_filterMap ?_
    intro ds f he
    rcases ho : checkConstant (natOfDigits ds) with - | r
    · rw [ho] at he
      exact absurd he (by simp)
    · rw [ho] at he
      simp only [Option.map_some'] at he
      rw [← (Option.some.injEq _ _).mp he]
      exact mkMathConstantFinding_conf_le_one _ _ _
  case grid =>
    unfold detectGridPatterns
    refine conf_le_one_of_mem_filterMap ?_
    intro ds f he
    rw [eq_of_ite_some he]
    exact q0_9_le_one
  case selfref =>
    intro f hf
    rcases List.mem_append.mp hf with h | h <;>
      · rcases mem_selfRefArm h with ⟨t', -, -, he⟩
        rw [he]
        exact q0_99_le_one
  case guid =>
    unfold detectGuidPatterns
    by_cases h3 : i.guids.length < 3
    · simp [h3]
    · rw [if_neg h3]
      refine conf_le_one_of_mem_filterMap ?_
      intro m f he
      simp only at he
      by_cases h1 : (guidResidues i.guids m).isEmpty
      · rw [if_pos h1] at he
        exact absurd he (by simp)
      · rw [if_neg h1] at he
        have hlt := eq_of_ite_some he
        rw [hlt]
        show (maxResidueCount (guidResidues i.guids m) : ℚ)
            / ((guidResidues i.guids m).length : ℚ) ≤ 1
        have hne : (guidResidues i.guids m).length ≠ 0 := by
          simpa [List.isEmpty_iff, List.length_eq_zero] using h1
        have hpos : (0 : ℚ) < ((guidResidues i.guids m).length : ℚ) := by
          exact_mod_cast Nat.pos_of_ne_zero hne
        rw [div_le_one hpos]
        exact_mod_cast maxResidueCount_le_length (guidResidues i.guids m)
  case seq =>
    unfold detectSequencePatterns
    refine conf_le_one_append ?_ ?_
    · refine conf_le_one_of_mem_filterMap ?_
      intro kw f he
      rw [eq_of_ite_some he]
      exact q0_7_le_one
    · refine conf_le_one_of_mem_filterMap ?_
      intro id f he
      rw [eq_of_ite_some he]
      exact q0_7_le_one

end Firewall

namespace Firewall

/-- Numeric bound used by the per-detector lemmas. -/
theorem q0_65_le_one : q0_65 ≤ 1 := by decide

/-- Numeric bound used by the per-detector lemmas. -/
theorem q0_75_le_one : q0_75 ≤ 1 := by decide

/-- Numeric bound used by the per-detector lemmas. -/
theorem q0_8_le_one : q0_8 ≤ 1 := by decide

/-- Numeric bound used by the per-detector lemmas. -/
theorem q0_85_le_one : q0_85 ≤ 1 := by decide

/-- Numeric bound used by the per-detector lemmas. -/
theorem q0_95_le_one : q0_95 ≤ 1 := by decide

/-- A two-branch confidence is bounded when both branches are. -/
theorem ite_le_one {p : Prop} [Decidable p] {x y : ℚ} (hx : x ≤ 1) (hy : y ≤ 1) :
    (if p then x else y) ≤ 1 := by
  split
  · exact hx
  · exact hy

/-- Every raw stego finding has confidence at most 1. -/
theorem stegoRawFindings_conf_le_one (i : StegoInput) :
    ∀ f ∈ stegoRawFindings i, f.confidence ≤ 1 := by
  unfold stegoRawFindings
  refine conf_le_one_append (conf_le_one_append ?eof ?ws) ?homo
  case eof =>
    rcases i.bytes with - | d
    · intro f hf
      exact absurd hf (by simp)
    · refine conf_le_one_append ?png ?jpeg
      case png =>
        intro f hf
        unfold detectEofPng at hf
        split at hf
        · split at hf
          · split at hf
            · rw [List.mem_singleton.mp hf]
              exact q0_9_le_one
            · exact absurd hf (by simp)
          · exact absurd hf (by simp)
        · exact absurd hf (by simp)
      case jpeg =>
        intro f hf
        unfold detectEofJpeg at hf
        split at hf
        · split at hf
          · split at hf
            · rw [List.mem_singleton.mp hf]
              exact q0_9_le_one
            · exact absurd hf (by simp)
          · exact absurd hf (by simp)
        · exact absurd hf (by simp)
  case ws =>
    rcases i.text with - | c
    · intro f hf
      exact absurd hf (by simp)
    · intro f hf
      unfold detectWhitespaceEncoding at hf
      dsimp only at hf
      split at hf
      · rw [List.mem_singleton.mp hf]
        exact le_trans (min_le_right _ _) q0_95_le_one
      · exact absurd hf (by simp)
  case homo =>
    rcases i.text with - | c
    · intro f hf
      exact absurd hf (by simp)
    · intro f hf
      unfold detectHomoglyphs at hf
      dsimp only at hf
      split at hf
      · exact absurd hf (by simp)
      · rw [List.mem_singleton.mp hf]
        exact q0_85_le_one

/-- Every raw network finding has confidence at most 1. -/
theorem networkRawFindings_conf_le_one (i : NetworkInput) :
    ∀ f ∈ networkRawFindings i, f.confidence ≤ 1 := by
  unfold networkRawFindings
  refine conf_le_one_append (conf_le_one_append ?dga ?ips) ?ports
  case dga =>
    unfold detectDgaDomains
    refine conf_le_one_append ?urls ?b64
    case urls =>
      refine conf_le_one_of_mem_filterMap ?_
      intro url f he
      rcases hs : secondSplitPiece "://".data url.data with - | s
      · rw [hs] at he
        exact absurd he (by simp)
      · rw [hs] at he
        simp only at he
        rw [eq_of_ite_some he]
        exact q0_75_le_one
    case b64 =>
      refine conf_le_one_of_mem_map ?_
      intro d
      exact q0_8_le_one
  case ips =>
    intro f hf
    unfold detectHardcodedIps at hf
    dsimp only at hf
    split at hf
    · exact absurd hf (by simp)
    · rw [List.mem_singleton.mp hf]
      exact q0_7_le_one
  case ports =>
    intro f hf
    unfold detectSuspiciousPortsF at hf
    dsimp only at hf
    split at hf
    · exact absurd hf (by simp)
    · rw [List.mem_singleton.mp hf]
      exact q0_75_le_one

/-- Every raw SVG finding has confidence at most 1. -/
theorem svgRawFindings_conf_le_one (i : SvgInput) :
    ∀ f ∈ svgRawFindings i, f.confidence ≤ 1 := by
  unfold svgRawFindings
  split
  · refine conf_le_one_append (conf_le_one_append (conf_le_one_append (conf_le_one_append
      (conf_le_one_append (conf_le_one_append (conf_le_one_append (conf_le_one_append
        (conf_le_one_append ?script ?eh) ?xlink) ?use) ?uri) ?b64) ?foreign) ?css)
        ?xxe) ?ifr
    case script =>
      refine conf_le_one_of_mem_map ?_
      intro m
      exact q0_99_le_one
    case eh =>
      refine conf_le_one_of_mem_map ?_
      intro m
      exact q0_95_le_one
    case xlink =>
      refine conf_le_one_of_mem_map ?_
      intro m
      exact ite_le_one q0_99_le_one q0_8_le_one
    case use =>
      refine conf_le_one_of_mem_map ?_
      intro m
      exact q0_85_le_one
    case uri =>
      refine conf_le_one_of_mem_map ?_
      intro m
      exact q0_9_le_one
    case b64 =>
      refine conf_le_one_of_mem_map ?_
      intro m
      exact q0_95_le_one
    case foreign =>
      refine conf_le_one_of_mem_map ?_
      intro m
      exact ite_le_one q0_99_le_one q0_75_le_one
    case css =>
      refine conf_le_one_of_mem_map ?_
      intro m
      exact q0_85_le_one
    case xxe =>
      refine conf_le_one_of_mem_map ?_
      intro m
      exact q0_95_le_one
    case ifr =>
      refine conf_le_one_of_mem_map ?_
      intro m
      exact q0_95_le_one
  · intro f hf
    exact absurd hf (by simp)

end Firewall

namespace Firewall

/-- Every raw temporal finding has confidence at most 1. -/
theorem temporalRawFindings_conf_le_one (i : TemporalInput) :
    ∀ f ∈ temporalRawFindings i, f.confidence ≤ 1 := by
  unfold temporalRawFindings
  refine conf_le_one_append (conf_le_one_append ?bombs ?delays) ?sched
  case bombs =>
    unfold detectTimeBombs
    refine conf_le_one_of_mem_filterMap ?_
    intro pc f he
    rw [eq_of_ite_some he]
    exact q0_7_le_one
  case delays =>
    unfold detectDelayedExecution
    refine conf_le_one_append ?sleep ?timer
    case sleep =>
      refine conf_le_one_of_mem_filterMap ?_
      intro c f he
      rcases hp : parseU64 c with - | d
      · rw [hp] at he
        exact absurd he (by simp)
      · rw [hp] at he
        simp only at he
        rw [eq_of_ite_some he]
        exact q0_75_le_one
    case timer =>
      refine conf_le_one_of_mem_filterMap ?_
      intro c f he
      rcases hp : parseU64 c with - | d
      · rw [hp] at he
        exact absurd he (by simp)
      · rw [hp] at he
        simp only at he
        rw [eq_of_ite_some he]
        exact q0_7_le_one
  case sched =>
    intro f hf
    unfold detectScheduling at hf
    split at hf
    · rw [List.mem_singleton.mp hf]
      exact q0_6_le_one
    · exact absurd hf (by simp)

/-- Every raw audio finding has confidence at most 1. -/
theorem audioRawFindings_conf_le_one (i : AudioInput) :
    ∀ f ∈ audioRawFindings i, f.confidence ≤ 1 := by
  unfold audioRawFindings
  refine conf_le_one_append (conf_le_one_append ?wav ?ultra) ?mic
  case wav =>
    intro f hf
    unfold detectAudioManipulation at hf
    split at hf
    · split at hf
      · dsimp only at hf
        split at hf
        · split at hf
          · rw [List.mem_singleton.mp hf]
            exact q0_65_le_one
          · exact absurd hf (by simp)
        · exact absurd hf (by simp)
      · exact absurd hf (by simp)
    · exact absurd hf (by simp)
  case ultra =>
    intro f hf
    unfold detectUltrasonic at hf
    split at hf
    · rw [List.mem_singleton.mp hf]
      exact q0_8_le_one
    · exact absurd hf (by simp)
  case mic =>
    intro f hf
    unfold detectMicAccess at hf
    split at hf
    · rw [List.mem_singleton.mp hf]
      exact ite_le_one q0_85_le_one q0_6_le_one
    · exact absurd hf (by simp)

/-- Every raw injection finding has confidence at most 1. -/
theorem injectionRawFindings_conf_le_one (i : InjectionInput) :
    ∀ f ∈ injectionRawFindings i, f.confidence ≤ 1 := by
  unfold injectionRawFindings
  refine conf_le_one_append (conf_le_one_append (conf_le_one_append ?kb ?cb) ?hid) ?auto
  case kb =>
    intro f hf
    unfold detectKeyboardInjection at hf
    split at hf
    · rw [List.mem_singleton.mp hf]
      exact ite_le_one q0_9_le_one q0_75_le_one
    · exact absurd hf (by simp)
  case cb =>
    intro f hf
    unfold detectClipboardHijacking at hf
    split at hf
    · rw [List.mem_singleton.mp hf]
      exact ite_le_one q0_95_le_one (ite_le_one q0_8_le_one q0_65_le_one)
    · exact absurd hf (by simp)
  case hid =>
    intro f hf
    unfold detectHidAttacks at hf
    split at hf
    · rw [List.mem_singleton.mp hf]
      exact ite_le_one q0_85_le_one q0_7_le_one
    · exact absurd hf (by simp)
  case auto =>
    intro f hf
    unfold detectAutomation at hf
    split at hf
    · rw [List.mem_singleton.mp hf]
      exact q0_7_le_one
    · exact absurd hf (by simp)

/-- Every raw obfuscation finding has confidence at most 1. -/
theorem obfuscationRawFindings_conf_le_one (i : ObfuscationInput) :
    ∀ f ∈ obfuscationRawFindings i, f.confidence ≤ 1 := by
  unfold obfuscationRawFindings
  refine conf_le_one_append (conf_le_one_append ?enc ?flat) ?opq
  case enc =>
    unfold detectEncryptedStrings
    refine conf_le_one_append ?hex ?b64
    case hex =>
      refine conf_le_one_of_mem_map ?_
      intro m
      exact q0_85_le_one
    case b64 =>
      refine conf_le_one_of_mem_filterMap ?_
      intro e f he
      rw [eq_of_ite_some he]
      exact q0_8_le_one
  case flat =>
    intro f hf
    unfold detectControlFlowFlattening at hf
    split at hf
    · rw [List.mem_singleton.mp hf]
      exact q0_75_le_one
    · exact absurd hf (by simp)
  case opq =>
    unfold detectOpaquePredicates
    refine conf_le_one_of_mem_filterMap ?_
    intro e f he
    rw [eq_of_ite_some he]
    exact q0_7_le_one

/-- Every raw filesystem finding has confidence at most 1. -/
theorem filesystemRawFindings_conf_le_one (i : FilesystemInput) :
    ∀ f ∈ filesystemRawFindings i, f.confidence ≤ 1 := by
  unfold filesystemRawFindings
  refine conf_le_one_append (conf_le_one_append (conf_le_one_append (conf_le_one_append
    (conf_le_one_append ?sym ?hidden) ?git) ?shot) ?sens) ?trav
  case sym =>
    unfold detectSymlinkAttacks
    refine conf_le_one_append (conf_le_one_append (conf_le_one_append ?selfr ?circ)
      ?escape) ?broken
    case selfr =>
      refine conf_le_one_of_mem_map ?_
      intro e
      exact q0_99_le_one
    case circ =>
      refine conf_le_one_of_mem_map ?_
      intro e
      exact q0_95_le_one
    case escape =>
      refine conf_le_one_of_mem_filterMap ?_
      intro e f he
      rw [eq_of_ite_some he]
      exact q0_9_le_one
    case broken =>
      refine conf_le_one_of_mem_map ?_
      intro e
      exact q0_7_le_one
  case hidden =>
    unfold detectHiddenRoot
    refine conf_le_one_of_mem_filterMap ?_
    intro e f he
    rw [eq_of_ite_some he]
    exact q0_8_le_one
  case git =>
    unfold detectGitExposure
    refine conf_le_one_of_mem_map ?_
    intro g
    exact q0_95_le_one
  case shot =>
    intro f hf
    unfold detectScreenshotCollection at hf
    split at hf
    · dsimp only at hf
      rw [List.mem_singleton.mp hf]
      exact ite_le_one q0_9_le_one q0_75_le_one
    · exact absurd hf (by simp)
  case sens =>
    unfold detectSensitiveFiles
    refine conf_le_one_of_mem_filterMap ?_
    intro e f he
    rcases hr : sensitiveFilesList.find? (fun s => e.1 == s || s.data.isSuffixOf e.2.data)
      with - | s
    · rw [hr] at he
      exact absurd he (by simp)
    · rw [hr] at he
      simp only at he
      rw [← (Option.some.injEq _ _).mp he]
      exact q0_95_le_one
  case trav =>
    unfold detectPathTraversal
    refine conf_le_one_of_mem_filterMap ?_
    intro e f he
    rw [eq_of_ite_some he]
    exact q0_9_le_one

/-- Every raw finding of every built-in skill has confidence at most 1. -/
theorem rawFindings_conf_le_one (i : SkillInput) :
    ∀ f ∈ rawFindings i, f.confidence ≤ 1 := by
  cases i with
  | cipher j => exact cipherRawFindings_conf_le_one j
  | stego j => exact stegoRawFindings_conf_le_one j
  | obfuscation j => exact obfuscationRawFindings_conf_le_one j
  | network j => exact networkRawFindings_conf_le_one j
  | temporal j => exact temporalRawFindings_conf_le_one j
  | audio j => exact audioRawFindings_conf_le_one j
  | injection j => exact injectionRawFindings_conf_le_one j
  | svg j => exact svgRawFindings_conf_le_one j
  | filesystem j => exact filesystemRawFindings_conf_le_one j

end Firewall

namespace Firewall

/-- C1: for every built-in skill and every analysis input, every finding of
a successful `execute` has confidence between the skill's threshold and 1.0,
the threshold being 0.70 for every built-in skill. -/
theorem builtin_skill_confidence_bounds :
    ∀ (i : SkillInput) (f : Finding), f ∈ executeFindings i →
      skillThreshold i = q0_7 ∧ q0_7 ≤ f.confidence ∧ f.confidence ≤ 1 := by
  intro i f hf
  unfold executeFindings filterByThreshold at hf
  have hm := List.mem_filter.mp hf
  have hth : skillThreshold i = q0_7 := by cases i <;> rfl
  refine ⟨hth, ?_, rawFindings_conf_le_one i f hm.1⟩
  have hle : skillThreshold i ≤ f.confidence := of_decide_eq_true hm.2
  rwa [hth] at hle

/-- The network-skill input of the C1 witness. -/
def c1DemoInput : SkillInput :=
  .network { loc := "f", content := "a 1.2.3.4 b".data, urls := [], b64Domains := [],
             portCaptures := [] }

/-- The finding the C1 witness input produces. -/
def c1DemoFinding : Finding :=
  { finding_type := "hardcoded_public_ip"
    value := .obj [("ips", .arr [.str "1.2.3.4"]), ("count", .num 1)]
    confidence := q0_7
    location := "f"
    severity := .medium }

/-- Witness for C1 at a concrete network-skill execution. -/
theorem builtin_skill_confidence_bounds_witness :
    c1DemoFinding ∈ executeFindings c1DemoInput
      ∧ (skillThreshold c1DemoInput = q0_7 ∧ q0_7 ≤ c1DemoFinding.confidence
          ∧ c1DemoFinding.confidence ≤ 1) :=
  ⟨by decide, builtin_skill_confidence_bounds c1DemoInput c1DemoFinding (by decide)⟩

/-- C10: at the public interface (after the 0.70 threshold filter), a
successful audio-skill execute never returns an `audio_anomaly` finding
(built with confidence 0.65) nor a `microphone_access` finding whose
`has_network` flag is false (built with confidence 0.6), and a successful
temporal-skill execute never returns a `scheduling_detected` finding (built
with confidence 0.6). -/
theorem subthreshold_findings_unreachable :
    (∀ (a : AudioInput) (f : Finding), f ∈ executeFindings (.audio a) →
        f.finding_type ≠ "audio_anomaly"
          ∧ (f.finding_type = "microphone_access" →
              f.value.lookup "has_network" = some (.bool true)))
      ∧ (∀ (t : TemporalInput) (g : Finding), g ∈ executeFindings (.temporal t) →
          g.finding_type ≠ "scheduling_detected") := by
  constructor
  · intro a f hf
    unfold executeFindings filterByThreshold at hf
    have hm := List.mem_filter.mp hf
    have hconf : q0_7 ≤ f.confidence := of_decide_eq_true hm.2
    have hraw : f ∈ audioRawFindings a := hm.1
    unfold audioRawFindings at hraw
    rcases List.mem_append.mp hraw with h12 | hmic
    · rcases List.mem_append.mp h12 with hwav | hultra
      · unfold detectAudioManipulation at hwav
        split at hwav
        · split at hwav
          · dsimp only at hwav
            split at hwav
            · split at hwav
              · rw [List.mem_singleton.mp hwav] at hconf
                exact absurd hconf (by decide : ¬q0_7 ≤ q0_65)
              · exact absurd hwav (by simp)
            · exact absurd hwav (by simp)
          · exact absurd hwav (by simp)
        · exact absurd hwav (by simp)
      · unfold detectUltrasonic at hultra
        split at hultra
        · have hfe := List.mem_singleton.mp hultra
          rw [hfe]
          exact ⟨(by decide : ("ultrasonic_frequency" : String) ≠ "audio_anomaly"),
            fun h => absurd h
              (by decide : ¬("ultrasonic_frequency" : String) = "microphone_access")⟩
        · exact absurd hultra (by simp)
    · unfold detectMicAccess at hmic
      split at hmic
      · have hfe := List.mem_singleton.mp hmic
        cases hn : a.hasNetwork
        · rw [hn] at hfe
          rw [hfe] at hconf
          exact absurd hconf (by decide : ¬q0_7 ≤ q0_6)
        · rw [hn] at hfe
          rw [hfe]
          exact ⟨(by decide : ("microphone_access" : String) ≠ "audio_anomaly"),
            fun _ => rfl⟩
      · exact absurd hmic (by simp)
  · intro t g hg
    unfold executeFindings filterByThreshold at hg
    have hm := List.mem_filter.mp hg
    have hconf : q0_7 ≤ g.confidence := of_decide_eq_true hm.2
    have hraw : g ∈ temporalRawFindings t := hm.1
    unfold temporalRawFindings at hraw
    rcases List.mem_append.mp hraw with h12 | hsched
    · rcases List.mem_append.mp h12 with hbomb | hdelay
      · unfold detectTimeBombs at hbomb
        rcases List.mem_filterMap.mp hbomb with ⟨pc, -, he⟩
        rw [eq_of_ite_some he]
        exact (by decide : ("potential_time_bomb" : String) ≠ "scheduling_detected")
      · unfold detectDelayedExecution at hdelay
        rcases List.mem_append.mp hdelay with hs | ht
        · rcases List.mem_filterMap.mp hs with ⟨c, -, he⟩
          rcases hp : parseU64 c with - | d
          · rw [hp] at he
            exact absurd he (by simp)
          · rw [hp] at he
            simp only at he
            rw [eq_of_ite_some he]
            exact (by decide : ("long_sleep_delay" : String) ≠ "scheduling_detected")
        · rcases List.mem_filterMap.mp ht with ⟨c, -, he⟩
          rcases hp : parseU64 c with - | d
          · rw [hp] at he
            exact absurd he (by simp)
          · rw [hp] at he
            simp only at he
            rw [eq_of_ite_some he]
            exact (by decide : ("long_timer_delay" : String) ≠ "scheduling_detected")
    · unfold detectScheduling at hsched
      split at hsched
      · rw [List.mem_singleton.mp hsched] at hconf
        exact absurd hconf (by decide : ¬q0_7 ≤ q0_6)
      · exact absurd hsched (by simp)

/-- The audio-skill input of the C10 witness: microphone keywords together
with network keywords. -/
def c10AudioInput : AudioInput :=
  { loc := "f", isWav := false, bytes := none, audioApiMatches := [], freqMatches := [],
    micMatches := ["microphone"], hasNetwork := true }

/-- The microphone finding the C10 audio input produces. -/
def c10MicFinding : Finding :=
  { finding_type := "microphone_access"
    value := .obj [("keywords", .arr [.str "microphone"]), ("has_network", .bool true)]
    confidence := q0_85
    location := "f"
    severity := .critical }

/-- The temporal-skill input of the C10 witness: one date comparison with a
date literal. -/
def c10TemporalInput : TemporalInput :=
  { loc := "f", comparisonCounts := [("p", 1)], dates := ["2030-01-01"],
    sleepCaptures := [], timerCaptures := [], scheduleMatches := [], cronCount := 0 }

/-- The time-bomb finding the C10 temporal input produces. -/
def c10BombFinding : Finding :=
  { finding_type := "potential_time_bomb"
    value := .obj [("pattern", .str "p"), ("dates_found", .arr [.str "2030-01-01"]),
                   ("comparison_count", .num 1)]
    confidence := q0_7
    location := "f"
    severity := .critical }

/-- Witness for C10 at concrete audio and temporal executions. -/
theorem subthreshold_findings_unreachable_witness :
    (c10MicFinding.finding_type ≠ "audio_anomaly"
        ∧ (c10MicFinding.finding_type = "microphone_access" →
            c10MicFinding.value.lookup "has_network" = some (.bool true)))
      ∧ c10BombFinding.finding_type ≠ "scheduling_detected" :=
  ⟨subthreshold_findings_unreachable.1 c10AudioInput c10MicFinding (by decide),
   subthreshold_findings_unreachable.2 c10TemporalInput c10BombFinding (by decide)⟩

end Firewall
